import Mathlib

/-! Belgite CPLD platform driver (`platform_pddf_cpld.c`).

A shallow embedding of the sysfs accessors of the Celestica Belgite CPLD driver.
The CPLD is reached through x86 I/O-port space; the driver keeps one global
`struct pddf_cpld_data` holding a mutex and the address selected for `getreg`.

* the I/O-port space is a function from port number to byte;
* every accessor is a function from the driver state (and its arguments) to the
  new driver state, the text it prints and its `ssize_t` return value;
* the kernel library routines the accessors call (`sysfs_streq`, `strsep`,
  `simple_strtoul`, `kstrtol`, `sprintf`) are transcribed from the Linux sources.
-/

namespace Belgite

/-! ## Register addresses and enumerations -/

def VERSION : Nat := 0xA100
def SCRATCH : Nat := 0xA101
def PSU_STAT : Nat := 0xA141
def PSUR_ALERT : Nat := 7
def PSUL_ALERT : Nat := 6
def PSUR_PRS : Nat := 5
def PSUL_PRS : Nat := 4
def PSUR_PWOK : Nat := 3
def PSUL_PWOK : Nat := 2
def PSUR_ENB : Nat := 1
def PSUL_ENB : Nat := 0
def LED_SYS : Nat := 0xA143
def LED_ALARM : Nat := 0xA144
def LED_PWR : Nat := 0xA142
def PRT_MDSL_TXFLT : Nat := 0xA147
def PRT_INT_RXLOS : Nat := 0xA148
def PRT_PRSNT_MODABS : Nat := 0xA149
def PRT_LPMOD_TXDIS : Nat := 0xA14A

/-- Values of `enum SYS_LED`: the colour select field, bits 5:4 of `LED_SYS`. -/
def sys_led_on : Nat := 0
def sys_led_amb : Nat := 1
def sys_led_grn : Nat := 2
def sys_led_off : Nat := 3

/-- Values of `enum LED_CTRL`: the blink control field, bits 1:0 of `LED_SYS`. -/
def led_off : Nat := 0
def led_blk_1hz : Nat := 1
def led_blk_4hz : Nat := 2
def led_on : Nat := 3

/-- Values of `enum ALARM_LED`. -/
def alarm_led_off : Nat := 0
def alarm_led_grn : Nat := 1
def alarm_led_amb : Nat := 2

def LED_OFF : List Char := ['o', 'f', 'f']
def LED_GREEN : List Char := ['g', 'r', 'e', 'e', 'n']
def LED_AMBER : List Char := ['a', 'm', 'b', 'e', 'r']
def LED_HZ_GBNK : List Char := ['g', 'r', 'n', '_', 'b', 'n', 'k', '_', '1', 'h', 'z']
def LED_HZ_ABNK : List Char := ['a', 'm', 'b', '_', 'b', 'n', 'k', '_', '1', 'h', 'z']
def LED_QHZ_GBNK : List Char := ['g', 'r', 'n', '_', 'b', 'n', 'k', '_', '4', 'h', 'z']
def LED_QHZ_ABNK : List Char := ['a', 'm', 'b', '_', 'b', 'n', 'k', '_', '4', 'h', 'z']
def LED_HZ_GABNK : List Char := ['g', 'r', 'n', '_', 'a', 'm', 'b', '_', '1', 'h', 'z']
def LED_QHZ_GABNK : List Char := ['g', 'r', 'n', '_', 'a', 'm', 'b', '_', '4', 'h', 'z']

def EINVAL : Int := 22
def ERANGE : Int := 34

/-! ## Driver state, port I/O and the lock -/

/-- One observable action of an accessor on the lock or on the I/O ports. -/
inductive Event where
  | lock : Event
  | unlock : Event
  | inb (port : Nat) : Event
  | outb (value : Nat) (port : Nat) : Event
  deriving DecidableEq

/-- The state behind the accessors: the I/O-port space (`regs port` is the byte at
`port`), the field `cpld_data->read_addr`, the mutex `cpld_data->cpld_lock`, a log of
the lock and port actions performed so far (oldest first), and the flag `faulted`,
set once a call has written past the end of a local array. From then on the C
behaviour is undefined; the other fields describe the run in which the stray byte
hits nothing the call uses. -/
structure Cpld where
  regs : Nat → Nat
  read_addr : Nat
  locked : Bool
  trace : List Event
  faulted : Bool

/-- The register file after one byte was stored at `port`. -/
def setPort (regs : Nat → Nat) (port : Nat) (value : Nat) : Nat → Nat :=
  fun p => if p = port then value else regs p

def mutex_lock (s : Cpld) : Cpld :=
  { s with locked := true, trace := s.trace ++ [Event.lock] }

def mutex_unlock (s : Cpld) : Cpld :=
  { s with locked := false, trace := s.trace ++ [Event.unlock] }

/-- Port read `inb(port)`: an `unsigned char`. -/
def inb (s : Cpld) (port : Nat) : Nat × Cpld :=
  (s.regs port % 256, { s with trace := s.trace ++ [Event.inb port] })

/-- Port write `outb(value, port)`: the value is narrowed to `unsigned char`. -/
def outb (s : Cpld) (value : Nat) (port : Nat) : Cpld :=
  { s with regs := setPort s.regs port (value % 256),
           trace := s.trace ++ [Event.outb (value % 256) port] }

/-! ## Kernel string routines -/

def NUL : Char := Char.ofNat 0
def NL : Char := Char.ofNat 10

/-- The C string held in a buffer: the bytes before the first NUL. An accessor
receives the bytes written to the sysfs file; the kernel terminates them with NUL. -/
def cstr (buf : List Char) : List Char :=
  buf.takeWhile (fun c => c != NUL)

/-- Kernel `sysfs_streq(s1, s2)`: string equality where a single trailing newline on
either side is ignored. -/
def sysfs_streq : List Char → List Char → Bool
  | [], [] => true
  | [], c2 :: s2 => c2 == NL && s2.isEmpty
  | c1 :: s1, [] => c1 == NL && s1.isEmpty
  | c1 :: s1, c2 :: s2 => if c1 = c2 then sysfs_streq s1 s2 else false

/-- Kernel `strsep(&s, ct)`: given the current position (`none` for `NULL`) returns
the token and the new position. The first byte of the position that belongs to `ct`
ends the token; without one the token is the whole rest and the position becomes
`NULL`. -/
def strsep (stringp : Option (List Char)) (ct : List Char) :
    Option (List Char) × Option (List Char) :=
  match stringp with
  | none => (none, none)
  | some sbegin =>
    match sbegin.span (fun c => !ct.contains c) with
    | (tok, []) => (some tok, none)
    | (tok, _ :: rest) => (some tok, some rest)

/-- The value of one digit character as `_parse_integer` reads it: `0`-`9`, and
`a`-`f` after OR-ing the character code with `0x20`; `none` for any other byte. -/
def digit_val (c : Char) : Option Nat :=
  let n := c.toNat
  let lc := n ||| 0x20
  if 48 ≤ n ∧ n ≤ 57 then some (n - 48)
  else if 97 ≤ lc ∧ lc ≤ 102 then some (lc - 97 + 10)
  else none

def isxdigit (c : Char) : Bool := (digit_val c).isSome

/-- Result of `_parse_integer`: the accumulated `unsigned long long`, the number of
characters consumed and the `KSTRTOX_OVERFLOW` flag. -/
structure Parsed where
  res : Nat
  rv : Nat
  overflow : Bool

/-- Kernel `_parse_integer(s, base, &res)`, as a loop over the characters with the
accumulator, the count and the overflow flag threaded through. -/
def parse_integer_loop (base : Nat) : List Char → Nat → Nat → Bool → Parsed
  | [], res, rv, ov => ⟨res, rv, ov⟩
  | c :: s, res, rv, ov =>
    match digit_val c with
    | none => ⟨res, rv, ov⟩
    | some val =>
      if val ≥ base then ⟨res, rv, ov⟩
      else
        let ov1 := ov || (decide (res &&& (0xF <<< 60) ≠ 0) &&
                          decide (res > (2 ^ 64 - 1 - val) / base))
        parse_integer_loop base s ((res * base + val) % 2 ^ 64) (rv + 1) ov1

def parse_integer (s : List Char) (base : Nat) : Parsed :=
  parse_integer_loop base s 0 0 false

/-- Kernel `_parse_integer_fixup_radix(s, &base)`: picks the base when it is 0 and
skips a `0x` prefix in base 16. Returns the remaining string and the base. -/
def parse_integer_fixup_radix (s : List Char) (base : Nat) : List Char × Nat :=
  let base1 :=
    if base = 0 then
      match s with
      | c0 :: rest =>
        if c0 = '0' then
          match rest with
          | c1 :: c2 :: _ => if (c1.toNat ||| 0x20) = 120 ∧ isxdigit c2 then 16 else 8
          | _ => 8
        else 10
      | [] => 10
    else base
  match s with
  | c0 :: c1 :: rest =>
    if base1 = 16 ∧ c0 = '0' ∧ (c1.toNat ||| 0x20) = 120 then (rest, base1) else (s, base1)
  | _ => (s, base1)

/-- Kernel `simple_strtoul(cp, &endp, base)` (the driver's `strtoul`): the parsed
`unsigned long` and the number of characters between `cp` and `endp`. No sign, no
leading white space; overflow is ignored. -/
def simple_strtoul (cp : List Char) (base : Nat) : Nat × Nat :=
  let (s, base1) := parse_integer_fixup_radix cp base
  let p := parse_integer s base1
  (p.res, (cp.length - s.length) + p.rv)

/-- Kernel `_kstrtoull(s, base, &res)`. -/
def kstrtoull_core (s : List Char) (base : Nat) : Except Int Nat :=
  let (s1, base1) := parse_integer_fixup_radix s base
  let p := parse_integer s1 base1
  if p.overflow then Except.error (-ERANGE)
  else if p.rv = 0 then Except.error (-EINVAL)
  else
    let s2 := s1.drop p.rv
    let s3 := match s2 with
      | c :: rest => if c = NL then rest else s2
      | [] => s2
    if s3 ≠ [] then Except.error (-EINVAL)
    else Except.ok p.res

/-- Kernel `kstrtoull(s, base, &res)`. -/
def kstrtoull (s : List Char) (base : Nat) : Except Int Nat :=
  match s with
  | c :: rest => if c = '+' then kstrtoull_core rest base else kstrtoull_core s base
  | [] => kstrtoull_core s base

/-- Kernel `kstrtol(s, base, &res)` on a 64-bit machine (`kstrtoll`): the status and,
on success, the parsed `long`. -/
def kstrtol (s : List Char) (base : Nat) : Except Int Int :=
  match s with
  | c :: rest =>
    if c = '-' then
      match kstrtoull_core rest base with
      | Except.error e => Except.error e
      | Except.ok tmp => if tmp > 2 ^ 63 then Except.error (-ERANGE) else Except.ok (-(tmp : Int))
    else
      match kstrtoull s base with
      | Except.error e => Except.error e
      | Except.ok tmp => if tmp ≥ 2 ^ 63 then Except.error (-ERANGE) else Except.ok (tmp : Int)
  | [] =>
    match kstrtoull s base with
    | Except.error e => Except.error e
    | Except.ok tmp => if tmp ≥ 2 ^ 63 then Except.error (-ERANGE) else Except.ok (tmp : Int)

/-- The text `sprintf` produces for `"0x%2.2x\n"`: lower-case hexadecimal with at
least two digits. -/
def sprintf_0x22x (data : Nat) : List Char :=
  let ds := Nat.toDigits 16 data
  ['0', 'x'] ++ List.replicate (2 - ds.length) '0' ++ ds ++ [NL]

/-- The text `sprintf` produces for `"%d\n"` on a non-negative value. -/
def sprintf_d (data : Nat) : List Char :=
  Nat.toDigits 10 data ++ [NL]

/-- The text `sprintf` produces for `"%s\n"`. -/
def sprintf_s (str : List Char) : List Char :=
  str ++ [NL]

/-- Bitwise complement of an `int` operand, as a 32-bit pattern. -/
def cnot (x : Nat) : Nat := (2 ^ 32 - 1) ^^^ (x % 2 ^ 32)

/-- The C expression `value & 0x01` on a two's-complement `long`. -/
def low_bit (value : Int) : Nat := (value % 2).toNat

/-! ## The accessors -/

/-- What a `*_show` accessor leaves behind: the driver state, the text written to the
output buffer and the returned length. -/
structure ShowResult where
  state : Cpld
  buf : List Char
  ret : Int

/-- What a `*_store` accessor leaves behind: the driver state and the returned
`ssize_t` (the byte count, or a negative errno). -/
structure StoreResult where
  state : Cpld
  ret : Int

def scratch_show (s : Cpld) : ShowResult :=
  let s1 := mutex_lock s
  let r := inb s1 SCRATCH
  let s2 := mutex_unlock r.2
  let out := sprintf_0x22x r.1
  ⟨s2, out, out.length⟩

def scratch_store (s : Cpld) (buf : List Char) (count : Nat) : StoreResult :=
  let s1 := mutex_lock s
  let r := simple_strtoul (cstr buf) 16
  let data := r.1 % 2 ^ 16
  if data = 0 ∧ r.2 = 0 then
    ⟨mutex_unlock s1, -EINVAL⟩
  else
    let s2 := outb s1 data SCRATCH
    ⟨mutex_unlock s2, count⟩

def version_show (s : Cpld) : ShowResult :=
  let s1 := mutex_lock s
  let r := inb s1 VERSION
  let out := sprintf_0x22x r.1
  let s2 := mutex_unlock r.2
  ⟨s2, out, out.length⟩

def getreg_store (s : Cpld) (buf : List Char) (count : Nat) : StoreResult :=
  let r := simple_strtoul (cstr buf) 16
  let addr := r.1 % 2 ^ 16
  if addr = 0 ∧ r.2 = 0 then
    ⟨s, -EINVAL⟩
  else
    ⟨{ s with read_addr := addr }, count⟩

def getreg_show (s : Cpld) : ShowResult :=
  let s1 := mutex_lock s
  let r := inb s1 s.read_addr
  let out := sprintf_0x22x r.1
  let s2 := mutex_unlock r.2
  ⟨s2, out, out.length⟩

/-- Kernel `strcpy(dest, src)` into a local array `dest` of `size` bytes: the bytes of
the C string `src` and its terminating NUL are copied, `src.length + 1` bytes in
all. When that is more than `size` the copy writes past the end of `dest` and the
state is marked `faulted`. Returns the string then held in `dest`. -/
def strcpy_into (s : Cpld) (size : Nat) (src : List Char) : List Char × Cpld :=
  (src, if size < src.length + 1 then { s with faulted := true } else s)

/-- The local array is `char clone[count]`, filled by `strcpy(clone, buf)`. -/
def setreg_store (s : Cpld) (buf : List Char) (count : Nat) : StoreResult :=
  let c := strcpy_into s count (cstr buf)
  let clone := c.1
  let s1 := mutex_lock c.2
  let t1 := strsep (some clone) [' ']
  match t1.1 with
  | none => ⟨mutex_unlock s1, -EINVAL⟩
  | some tok =>
    let r := simple_strtoul tok 16
    let addr := r.1 % 2 ^ 16
    if addr = 0 ∧ r.2 = 0 then
      ⟨mutex_unlock s1, -EINVAL⟩
    else
      let t2 := strsep t1.2 [' ']
      match t2.1 with
      | none => ⟨mutex_unlock s1, -EINVAL⟩
      | some tok2 =>
        let r2 := simple_strtoul tok2 16
        let value := r2.1 % 2 ^ 8
        if value = 0 ∧ r2.2 = 0 then
          ⟨mutex_unlock s1, -EINVAL⟩
        else
          let s2 := outb s1 value addr
          ⟨mutex_unlock s2, count⟩

def sys_led_show (s : Cpld) : ShowResult :=
  let s1 := mutex_lock s
  let r := inb s1 LED_SYS
  let s2 := mutex_unlock r.2
  let data := r.1
  let color := (data &&& 0x30) >>> 4
  let control := data &&& 0x3
  let str :=
    if color = sys_led_on then
      if control = led_blk_1hz then LED_HZ_GABNK
      else if control = led_blk_4hz then LED_QHZ_GABNK
      else LED_OFF
    else if color = sys_led_amb then
      if control = led_blk_1hz then LED_HZ_ABNK
      else if control = led_blk_4hz then LED_QHZ_ABNK
      else if control = led_on then LED_AMBER
      else LED_OFF
    else if color = sys_led_grn then
      if control = led_blk_1hz then LED_HZ_GBNK
      else if control = led_blk_4hz then LED_QHZ_GBNK
      else if control = led_on then LED_GREEN
      else LED_OFF
    else LED_OFF
  let out := sprintf_s str
  ⟨s2, out, out.length⟩

/-- The local `data` of `sys_led_store` has no initialiser: `data0` is whatever byte
it holds on entry. -/
def sys_led_store (s : Cpld) (buf : List Char) (count : Nat) (data0 : Nat) : StoreResult :=
  let b := cstr buf
  let r : Nat × Int :=
    if sysfs_streq b LED_OFF then ((sys_led_off <<< 4) + led_off, count)
    else if sysfs_streq b LED_GREEN then ((sys_led_grn <<< 4) + led_on, count)
    else if sysfs_streq b LED_AMBER then ((sys_led_amb <<< 4) + led_on, count)
    else if sysfs_streq b LED_HZ_GBNK then ((sys_led_grn <<< 4) + led_blk_1hz, count)
    else if sysfs_streq b LED_HZ_ABNK then ((sys_led_amb <<< 4) + led_blk_1hz, count)
    else if sysfs_streq b LED_QHZ_GBNK then ((sys_led_grn <<< 4) + led_blk_4hz, count)
    else if sysfs_streq b LED_QHZ_ABNK then ((sys_led_amb <<< 4) + led_blk_4hz, count)
    else if sysfs_streq b LED_HZ_GABNK then ((sys_led_on <<< 4) + led_blk_1hz, count)
    else if sysfs_streq b LED_QHZ_GABNK then ((sys_led_on <<< 4) + led_blk_4hz, count)
    else (data0, -EINVAL)
  let s1 := mutex_lock s
  let s2 := outb s1 r.1 LED_SYS
  ⟨mutex_unlock s2, r.2⟩

def alarm_led_show (s : Cpld) : ShowResult :=
  let s1 := mutex_lock s
  let r := inb s1 LED_ALARM
  let s2 := mutex_unlock r.2
  let data := r.1 &&& 0x3
  let str :=
    if data = alarm_led_grn then ['o', 'n']
    else if data = alarm_led_amb then ['a', 'm', 'b', 'e', 'r']
    else ['o', 'f', 'f']
  let out := sprintf_s str
  ⟨s2, out, out.length⟩

def alarm_led_store (s : Cpld) (buf : List Char) (count : Nat) : StoreResult :=
  let b := cstr buf
  let sel : Option Nat :=
    if sysfs_streq b ['o', 'f', 'f'] then some alarm_led_off
    else if sysfs_streq b ['g', 'r', 'e', 'e', 'n'] then some alarm_led_grn
    else if sysfs_streq b ['a', 'm', 'b', 'e', 'r'] then some alarm_led_amb
    else none
  match sel with
  | none => ⟨s, -EINVAL⟩
  | some led_status =>
    let s1 := mutex_lock s
    let r := inb s1 LED_ALARM
    let data := r.1 &&& cnot 0x3
    let data1 := data ||| led_status
    let s2 := outb r.2 data1 LED_ALARM
    ⟨mutex_unlock s2, count⟩

def pwr_led_show (s : Cpld) : ShowResult :=
  let s1 := mutex_lock s
  let r := inb s1 LED_ALARM
  let s2 := mutex_unlock r.2
  let data := r.1 &&& 0x3
  let str :=
    if data = alarm_led_grn then ['o', 'n']
    else if data = alarm_led_amb then ['a', 'm', 'b', 'e', 'r']
    else ['o', 'f', 'f']
  let out := sprintf_s str
  ⟨s2, out, out.length⟩

def pwr_led_store (s : Cpld) (buf : List Char) (count : Nat) : StoreResult :=
  let b := cstr buf
  let sel : Option Nat :=
    if sysfs_streq b ['o', 'f', 'f'] then some alarm_led_off
    else if sysfs_streq b ['g', 'r', 'e', 'e', 'n'] then some alarm_led_grn
    else if sysfs_streq b ['a', 'm', 'b', 'e', 'r'] then some alarm_led_amb
    else none
  match sel with
  | none => ⟨s, -EINVAL⟩
  | some led_status =>
    let s1 := mutex_lock s
    let r := inb s1 LED_ALARM
    let data := r.1 &&& cnot 0x3
    let data1 := data ||| led_status
    let s2 := outb r.2 data1 LED_ALARM
    ⟨mutex_unlock s2, count⟩

/-- The shared shape of the PSU status reads: `(inb(PSU_STAT) >> bit) & 1` printed
with `"%d\n"`. -/
def psu_bit_show (s : Cpld) (bit : Nat) : ShowResult :=
  let s1 := mutex_lock s
  let r := inb s1 PSU_STAT
  let s2 := mutex_unlock r.2
  let data := (r.1 >>> bit) &&& 1
  let out := sprintf_d data
  ⟨s2, out, out.length⟩

def psuL_prs_show (s : Cpld) : ShowResult := psu_bit_show s PSUL_PRS
def psuR_prs_show (s : Cpld) : ShowResult := psu_bit_show s PSUR_PRS
def psuL_status_show (s : Cpld) : ShowResult := psu_bit_show s PSUL_PWOK
def psuR_status_show (s : Cpld) : ShowResult := psu_bit_show s PSUR_PWOK
def psuL_enb_show (s : Cpld) : ShowResult := psu_bit_show s PSUL_ENB
def psuR_enb_show (s : Cpld) : ShowResult := psu_bit_show s PSUR_ENB

/-- The shared body of `psuL_enb_store` and `psuR_enb_store`, which differ only in
the bit position `enb`. -/
def psu_enb_store (s : Cpld) (enb : Nat) (buf : List Char) (size : Nat) : StoreResult :=
  let s1 := mutex_lock s
  match kstrtol (cstr buf) 0 with
  | Except.error status => ⟨mutex_unlock s1, status⟩
  | Except.ok v =>
    let value := low_bit v <<< enb
    let r := inb s1 PSU_STAT
    let data := r.1 ||| value
    let s2 := outb r.2 data PSU_STAT
    ⟨mutex_unlock s2, size⟩

def psuL_enb_store (s : Cpld) (buf : List Char) (size : Nat) : StoreResult :=
  psu_enb_store s PSUL_ENB buf size

def psuR_enb_store (s : Cpld) (buf : List Char) (size : Nat) : StoreResult :=
  psu_enb_store s PSUR_ENB buf size

/-- The shared shape of the four SFP reads; `index` is the attribute index, 1..8
(`SFP_1` .. `SFP_8`). -/
def sfp_bit_show (s : Cpld) (port : Nat) (index : Nat) : ShowResult :=
  let s1 := mutex_lock s
  let r := inb s1 port
  let data := ((r.1 &&& 0xFF) >>> (index - 1)) &&& 0x1
  let s2 := mutex_unlock r.2
  let out := sprintf_d data
  ⟨s2, out, out.length⟩

def sfp_txfault_show (s : Cpld) (index : Nat) : ShowResult := sfp_bit_show s PRT_MDSL_TXFLT index
def sfp_modabs_show (s : Cpld) (index : Nat) : ShowResult := sfp_bit_show s PRT_PRSNT_MODABS index
def sfp_rxlos_show (s : Cpld) (index : Nat) : ShowResult := sfp_bit_show s PRT_INT_RXLOS index
def sfp_txdis_show (s : Cpld) (index : Nat) : ShowResult := sfp_bit_show s PRT_LPMOD_TXDIS index

def sfp_txdis_store (s : Cpld) (index : Nat) (buf : List Char) (size : Nat) : StoreResult :=
  let s1 := mutex_lock s
  match kstrtol (cstr buf) 0 with
  | Except.error status => ⟨mutex_unlock s1, status⟩
  | Except.ok value =>
    if value = 0 then
      let r := inb s1 PRT_LPMOD_TXDIS
      let data := r.1 &&& (0xFF &&& cnot (0x1 <<< (index - 1)))
      let s2 := outb r.2 data PRT_LPMOD_TXDIS
      ⟨mutex_unlock s2, size⟩
    else if value = 1 then
      let r := inb s1 PRT_LPMOD_TXDIS
      let data := r.1 ||| (0x1 <<< (index - 1))
      let s2 := outb r.2 data PRT_LPMOD_TXDIS
      ⟨mutex_unlock s2, size⟩
    else
      ⟨mutex_unlock s1, -EINVAL⟩

/-! ## Auxiliary definitions for the statements -/

/-- The nine tokens of the status LED attribute. -/
def sys_led_tokens : List (List Char) :=
  [LED_OFF, LED_GREEN, LED_AMBER, LED_HZ_GBNK, LED_HZ_ABNK, LED_QHZ_GBNK, LED_QHZ_ABNK,
   LED_HZ_GABNK, LED_QHZ_GABNK]

/-- A driver state in which every port holds the byte `b`, the lock is free and
nothing has been logged. -/
def all_ports (b : Nat) : Cpld := ⟨fun _ => b, 0, false, [], false⟩

/-- The status LED decode table in the words of the specification: colour On = 0,
Amber = 1, Green = 2, Off = 3 against control Off = 0, Blink1Hz = 1, Blink4Hz = 2,
SolidOn = 3; every pair that is not listed reads `off`. -/
def sys_led_table (color control : Nat) : List Char :=
  match color, control with
  | 0, 1 => ['g', 'r', 'n', '_', 'a', 'm', 'b', '_', '1', 'h', 'z']
  | 0, 2 => ['g', 'r', 'n', '_', 'a', 'm', 'b', '_', '4', 'h', 'z']
  | 1, 1 => ['a', 'm', 'b', '_', 'b', 'n', 'k', '_', '1', 'h', 'z']
  | 1, 2 => ['a', 'm', 'b', '_', 'b', 'n', 'k', '_', '4', 'h', 'z']
  | 1, 3 => ['a', 'm', 'b', 'e', 'r']
  | 2, 1 => ['g', 'r', 'n', '_', 'b', 'n', 'k', '_', '1', 'h', 'z']
  | 2, 2 => ['g', 'r', 'n', '_', 'b', 'n', 'k', '_', '4', 'h', 'z']
  | 2, 3 => ['g', 'r', 'e', 'e', 'n']
  | _, _ => ['o', 'f', 'f']

/-- The number a string of hexadecimal digits denotes, most significant digit
first. -/
def hex_value (ds : List Char) : Nat :=
  ds.foldl (fun acc c => acc * 16 + (digit_val c).getD 0) 0

/-- The text `ds` is a hexadecimal numeral for `n`: at least one character, every
character a hexadecimal digit of either case, and value `n`. -/
def IsHexNumeral (ds : List Char) (n : Nat) : Prop :=
  ds ≠ [] ∧ (∀ c ∈ ds, isxdigit c = true) ∧ hex_value ds = n

instance (ds : List Char) (n : Nat) : Decidable (IsHexNumeral ds n) := by
  unfold IsHexNumeral
  infer_instance

/-- The upper-case hexadecimal digit for `d < 16`. -/
def hex_digit_upper (d : Nat) : Char :=
  if d < 10 then Char.ofNat (48 + d) else Char.ofNat (55 + d)

/-- A 16-bit address as four upper-case hexadecimal digits, as in `A101`. -/
def hex4 (a : Nat) : List Char :=
  [hex_digit_upper (a / 4096 % 16), hex_digit_upper (a / 256 % 16),
   hex_digit_upper (a / 16 % 16), hex_digit_upper (a % 16)]

/-- A byte as two upper-case hexadecimal digits, as in `5A`. -/
def hex2 (v : Nat) : List Char :=
  [hex_digit_upper (v / 16 % 16), hex_digit_upper (v % 16)]

/-- The lower-case hexadecimal digit for `d < 16`. -/
def hex_digit_lower (d : Nat) : Char :=
  if d < 10 then Char.ofNat (48 + d) else Char.ofNat (87 + d)

/-- A byte printed as `0x`, its two hexadecimal digits and a newline. -/
def hex_byte_text (b : Nat) : List Char :=
  ['0', 'x', hex_digit_lower (b / 16), hex_digit_lower (b % 16), NL]

/-- One call of an accessor through its sysfs attribute, with the arguments the
caller controls. The SFP attributes carry their index 1..8. -/
inductive Call where
  | version_show : Call
  | scratch_show : Call
  | scratch_store (buf : List Char) (count : Nat) : Call
  | getreg_show : Call
  | getreg_store (buf : List Char) (count : Nat) : Call
  | setreg_store (buf : List Char) (count : Nat) : Call
  | sys_led_show : Call
  | sys_led_store (buf : List Char) (count : Nat) (data0 : Nat) : Call
  | alarm_led_show : Call
  | alarm_led_store (buf : List Char) (count : Nat) : Call
  | pwr_led_show : Call
  | pwr_led_store (buf : List Char) (count : Nat) : Call
  | psuL_prs_show : Call
  | psuR_prs_show : Call
  | psuL_status_show : Call
  | psuR_status_show : Call
  | psuL_enb_show : Call
  | psuL_enb_store (buf : List Char) (size : Nat) : Call
  | psuR_enb_show : Call
  | psuR_enb_store (buf : List Char) (size : Nat) : Call
  | sfp_txfault_show (index : Nat) : Call
  | sfp_modabs_show (index : Nat) : Call
  | sfp_rxlos_show (index : Nat) : Call
  | sfp_txdis_show (index : Nat) : Call
  | sfp_txdis_store (index : Nat) (buf : List Char) (size : Nat) : Call

/-- The driver state after one call. -/
def step (s : Cpld) : Call → Cpld
  | Call.version_show => (version_show s).state
  | Call.scratch_show => (scratch_show s).state
  | Call.scratch_store buf count => (scratch_store s buf count).state
  | Call.getreg_show => (getreg_show s).state
  | Call.getreg_store buf count => (getreg_store s buf count).state
  | Call.setreg_store buf count => (setreg_store s buf count).state
  | Call.sys_led_show => (sys_led_show s).state
  | Call.sys_led_store buf count data0 => (sys_led_store s buf count data0).state
  | Call.alarm_led_show => (alarm_led_show s).state
  | Call.alarm_led_store buf count => (alarm_led_store s buf count).state
  | Call.pwr_led_show => (pwr_led_show s).state
  | Call.pwr_led_store buf count => (pwr_led_store s buf count).state
  | Call.psuL_prs_show => (psuL_prs_show s).state
  | Call.psuR_prs_show => (psuR_prs_show s).state
  | Call.psuL_status_show => (psuL_status_show s).state
  | Call.psuR_status_show => (psuR_status_show s).state
  | Call.psuL_enb_show => (psuL_enb_show s).state
  | Call.psuL_enb_store buf size => (psuL_enb_store s buf size).state
  | Call.psuR_enb_show => (psuR_enb_show s).state
  | Call.psuR_enb_store buf size => (psuR_enb_store s buf size).state
  | Call.sfp_txfault_show index => (sfp_txfault_show s index).state
  | Call.sfp_modabs_show index => (sfp_modabs_show s index).state
  | Call.sfp_rxlos_show index => (sfp_rxlos_show s index).state
  | Call.sfp_txdis_show index => (sfp_txdis_show s index).state
  | Call.sfp_txdis_store index buf size => (sfp_txdis_store s index buf size).state

/-- The driver state after a sequence of calls, first call first. -/
def run (s : Cpld) (calls : List Call) : Cpld :=
  calls.foldl step s

/-- One row of the status LED encode table in the words of the specification: the
token, its colour field, its control field and the byte written. -/
structure LedCode where
  token : List Char
  color : Nat
  control : Nat
  byte : Nat

/-- The status LED encode table: colour On = 0, Amber = 1, Green = 2, Off = 3 and
control Off = 0, Blink1Hz = 1, Blink4Hz = 2, SolidOn = 3. -/
def sys_led_codes : List LedCode :=
  [⟨['o', 'f', 'f'], 3, 0, 0x30⟩,
   ⟨['g', 'r', 'e', 'e', 'n'], 2, 3, 0x23⟩,
   ⟨['a', 'm', 'b', 'e', 'r'], 1, 3, 0x13⟩,
   ⟨['g', 'r', 'n', '_', 'b', 'n', 'k', '_', '1', 'h', 'z'], 2, 1, 0x21⟩,
   ⟨['a', 'm', 'b', '_', 'b', 'n', 'k', '_', '1', 'h', 'z'], 1, 1, 0x11⟩,
   ⟨['g', 'r', 'n', '_', 'b', 'n', 'k', '_', '4', 'h', 'z'], 2, 2, 0x22⟩,
   ⟨['a', 'm', 'b', '_', 'b', 'n', 'k', '_', '4', 'h', 'z'], 1, 2, 0x12⟩,
   ⟨['g', 'r', 'n', '_', 'a', 'm', 'b', '_', '1', 'h', 'z'], 0, 1, 0x01⟩,
   ⟨['g', 'r', 'n', '_', 'a', 'm', 'b', '_', '4', 'h', 'z'], 0, 2, 0x02⟩]

/-- One bit printed as `0` or `1` and a newline. -/
def bit_text (b : Bool) : List Char :=
  [if b then '1' else '0', NL]

def TAB : Char := Char.ofNat 9

/-- The sixteen lower-case hexadecimal digits in order. -/
def lower_hex_digits : List Char :=
  "0123456789abcdef".toList

/-- Replays logged events against the lock flag `held`: taking the lock needs it
free, releasing it needs it held, and a port read or write needs it held. The result
is `true` when no event breaks these rules and the lock is free at the end. -/
def lock_discipline : Bool → List Event → Bool
  | held, [] => !held
  | false, Event.lock :: es => lock_discipline true es
  | true, Event.unlock :: es => lock_discipline false es
  | true, Event.inb _ :: es => lock_discipline true es
  | true, Event.outb _ _ :: es => lock_discipline true es
  | _, _ => false

/-- How often the lock is taken in a list of events. -/
def acquisitions (es : List Event) : Nat :=
  es.count Event.lock

/-- The events one call appends to the log. -/
def call_events (s : Cpld) (c : Call) : List Event :=
  (step s c).trace.drop s.trace.length

/-- The event lists an accessor can append: nothing, an empty critical section, one
read, one write, or one read followed by one write, each inside a single
`lock` .. `unlock` pair. -/
def IsTransaction (ev : List Event) : Prop :=
  ev = [] ∨ ev = [Event.lock, Event.unlock] ∨
  (∃ p, ev = [Event.lock, Event.inb p, Event.unlock]) ∨
  (∃ v p, ev = [Event.lock, Event.outb v p, Event.unlock]) ∨
  (∃ p v q, ev = [Event.lock, Event.inb p, Event.outb v q, Event.unlock])

/-- The state `s1` extends the log of `s` by one transaction and leaves a free lock
free. -/
def Extends (s s1 : Cpld) : Prop :=
  ∃ ev, s1.trace = s.trace ++ ev ∧ IsTransaction ev ∧ (s.locked = false → s1.locked = false)

/-- The I/O resource the platform device declares (`pddf_cpld_resources`): first and
last port of the window. -/
def pddf_cpld_resources_start : Nat := 0x0200
def pddf_cpld_resources_end : Nat := 0x0255

/-- The ports the accessors read or write. -/
def accessed_ports : List Nat :=
  [VERSION, SCRATCH, PSU_STAT, LED_SYS, LED_ALARM, PRT_MDSL_TXFLT, PRT_INT_RXLOS,
   PRT_PRSNT_MODABS, PRT_LPMOD_TXDIS]

/-- For a `*_show` call, what the accessor returns; `none` for a `*_store` call. -/
def show_call (s : Cpld) : Call → Option ShowResult
  | Call.version_show => some (version_show s)
  | Call.scratch_show => some (scratch_show s)
  | Call.getreg_show => some (getreg_show s)
  | Call.sys_led_show => some (sys_led_show s)
  | Call.alarm_led_show => some (alarm_led_show s)
  | Call.pwr_led_show => some (pwr_led_show s)
  | Call.psuL_prs_show => some (psuL_prs_show s)
  | Call.psuR_prs_show => some (psuR_prs_show s)
  | Call.psuL_status_show => some (psuL_status_show s)
  | Call.psuR_status_show => some (psuR_status_show s)
  | Call.psuL_enb_show => some (psuL_enb_show s)
  | Call.psuR_enb_show => some (psuR_enb_show s)
  | Call.sfp_txfault_show index => some (sfp_txfault_show s index)
  | Call.sfp_modabs_show index => some (sfp_modabs_show s index)
  | Call.sfp_rxlos_show index => some (sfp_rxlos_show s index)
  | Call.sfp_txdis_show index => some (sfp_txdis_show s index)
  | _ => none

/-- The tokens of the alarm and power LED attributes with their 2-bit codes, in the
words of the specification: off = 0, green = 1, amber = 2. -/
def three_state_codes : List (List Char × Nat) :=
  [(['o', 'f', 'f'], 0), (['g', 'r', 'e', 'e', 'n'], 1), (['a', 'm', 'b', 'e', 'r'], 2)]

/-- The three tokens of the alarm and power LED attributes. -/
def three_state_tokens : List (List Char) :=
  [['o', 'f', 'f'], ['g', 'r', 'e', 'e', 'n'], ['a', 'm', 'b', 'e', 'r']]

/-! ## Parallel callers of `sfp_txdis_store` -/

/-- One caller of `sfp_txdis_store` on the text `1` for the port `index`, stopped
between two statements. `pc` tells which statement comes next: 0 `mutex_lock` (with
`kstrtol`, which yields the value 1 and uses no shared state), 1 `inb`, 2 the `|=`
and `outb`, 3 `mutex_unlock`, 4 returned. `data` is the local of that name. -/
structure Caller where
  index : Nat
  pc : Nat
  data : Nat

/-- The next statement of one caller on the shared driver state. `mutex_lock` does
not proceed while the lock is held. -/
def caller_step (s : Cpld) (t : Caller) : Cpld × Caller :=
  if t.pc = 0 then
    if s.locked then (s, t) else (mutex_lock s, { t with pc := 1 })
  else if t.pc = 1 then
    ((inb s PRT_LPMOD_TXDIS).2, { t with pc := 2, data := (inb s PRT_LPMOD_TXDIS).1 })
  else if t.pc = 2 then
    (outb s (t.data ||| (0x1 <<< (t.index - 1))) PRT_LPMOD_TXDIS, { t with pc := 3 })
  else if t.pc = 3 then
    (mutex_unlock s, { t with pc := 4 })
  else (s, t)

theorem strcpy_into_regs (s : Cpld) (size : Nat) (src : List Char) :
    (strcpy_into s size src).2.regs = s.regs := by
  unfold strcpy_into
  simp only
  split_ifs <;> rfl

theorem strcpy_into_read_addr (s : Cpld) (size : Nat) (src : List Char) :
    (strcpy_into s size src).2.read_addr = s.read_addr := by
  unfold strcpy_into
  simp only
  split_ifs <;> rfl

theorem strcpy_into_trace (s : Cpld) (size : Nat) (src : List Char) :
    (strcpy_into s size src).2.trace = s.trace := by
  unfold strcpy_into
  simp only
  split_ifs <;> rfl

theorem strcpy_into_locked (s : Cpld) (size : Nat) (src : List Char) :
    (strcpy_into s size src).2.locked = s.locked := by
  unfold strcpy_into
  simp only
  split_ifs <;> rfl

/-- A copy that fits its destination leaves the state as it was. -/
theorem strcpy_into_fits (s : Cpld) (size : Nat) (src : List Char) (h : src.length < size) :
    strcpy_into s size src = (src, s) := by
  have hn : ¬ size < src.length + 1 := by omega
  simp [strcpy_into, hn]

/-- A copy that does not fit marks the state. -/
theorem strcpy_into_overrun (s : Cpld) (size : Nat) (src : List Char) (h : size ≤ src.length) :
    (strcpy_into s size src).2.faulted = true := by
  have hn : size < src.length + 1 := by omega
  simp [strcpy_into, hn]

theorem sys_led_show_buf_congr (s s1 : Cpld) (h : s.regs LED_SYS % 256 = s1.regs LED_SYS % 256) :
    (sys_led_show s).buf = (sys_led_show s1).buf := by
  simp [sys_led_show, inb, mutex_lock, mutex_unlock, h]

theorem alarm_led_show_buf_congr (s s1 : Cpld)
    (h : s.regs LED_ALARM % 256 = s1.regs LED_ALARM % 256) :
    (alarm_led_show s).buf = (alarm_led_show s1).buf := by
  simp [alarm_led_show, inb, mutex_lock, mutex_unlock, h]

theorem psu_bit_show_buf_congr (s s1 : Cpld) (bit : Nat)
    (h : s.regs PSU_STAT % 256 = s1.regs PSU_STAT % 256) :
    (psu_bit_show s bit).buf = (psu_bit_show s1 bit).buf := by
  simp [psu_bit_show, inb, mutex_lock, mutex_unlock, h]

/-- Every call of `sys_led_store`, accepted or not, ends with one port write to
`LED_SYS` between taking and releasing the lock. -/
theorem sys_led_store_trace (s : Cpld) (buf : List Char) (count data0 : Nat) :
    (sys_led_store s buf count data0).state.trace =
      s.trace ++ [Event.lock,
        Event.outb ((sys_led_store s buf count data0).state.regs LED_SYS) LED_SYS,
        Event.unlock] := by
  simp [sys_led_store, mutex_lock, mutex_unlock, outb, setPort]

/-! ## C1: status LED round trip -/

/-- C1. For each of the nine status LED tokens and every prior state (and every
content of the uninitialised local), writing the token with `sys_led_store` and
then reading with `sys_led_show` prints exactly that token followed by a newline. -/
theorem sys_led_store_show_round_trip (s : Cpld) (count data0 : Nat) (t : List Char)
    (ht : t ∈ sys_led_tokens) :
    (sys_led_show (sys_led_store s t count data0).state).buf = t ++ [NL] := by
  simp only [sys_led_tokens, List.mem_cons, List.mem_singleton, List.not_mem_nil, or_false] at ht
  rcases ht with rfl | rfl | rfl | rfl | rfl | rfl | rfl | rfl | rfl
  · exact (sys_led_show_buf_congr _ (all_ports 0x30) rfl).trans rfl
  · exact (sys_led_show_buf_congr _ (all_ports 0x23) rfl).trans rfl
  · exact (sys_led_show_buf_congr _ (all_ports 0x13) rfl).trans rfl
  · exact (sys_led_show_buf_congr _ (all_ports 0x21) rfl).trans rfl
  · exact (sys_led_show_buf_congr _ (all_ports 0x11) rfl).trans rfl
  · exact (sys_led_show_buf_congr _ (all_ports 0x22) rfl).trans rfl
  · exact (sys_led_show_buf_congr _ (all_ports 0x12) rfl).trans rfl
  · exact (sys_led_show_buf_congr _ (all_ports 0x01) rfl).trans rfl
  · exact (sys_led_show_buf_congr _ (all_ports 0x02) rfl).trans rfl

theorem sys_led_store_show_round_trip_witness :
    LED_HZ_GABNK ∈ sys_led_tokens ∧
    (sys_led_show (sys_led_store (all_ports 0xFF) LED_HZ_GABNK 11 0x5A).state).buf =
      ['g', 'r', 'n', '_', 'a', 'm', 'b', '_', '1', 'h', 'z', NL] :=
  ⟨by decide, sys_led_store_show_round_trip (all_ports 0xFF) 11 0x5A LED_HZ_GABNK (by decide)⟩

/-! ## C2: a rejected status LED write still reaches the port -/

/-- C2. Evaluation at the failing input: with `LED_SYS` holding 0x30 and the
uninitialised local holding 0x23, `sys_led_store` on the text `purple` returns
`-EINVAL` and nevertheless writes: `LED_SYS` holds 0x23 afterwards and the log shows
one `outb`. -/
theorem sys_led_store_rejected_still_writes :
    ¬ (['p', 'u', 'r', 'p', 'l', 'e'] ∈ sys_led_tokens) ∧
    (sys_led_store (all_ports 0x30) ['p', 'u', 'r', 'p', 'l', 'e'] 6 0x23).ret = -EINVAL ∧
    (all_ports 0x30).regs LED_SYS = 0x30 ∧
    (sys_led_store (all_ports 0x30) ['p', 'u', 'r', 'p', 'l', 'e'] 6 0x23).state.regs LED_SYS
      = 0x23 ∧
    (sys_led_store (all_ports 0x30) ['p', 'u', 'r', 'p', 'l', 'e'] 6 0x23).state.trace
      = [Event.lock, Event.outb 0x23 LED_SYS, Event.unlock] :=
  ⟨by decide, rfl, rfl, rfl, rfl⟩

/-! ## C3: the 3-state LEDs print `on` for green -/

/-- C3. Evaluation at the failing input: after `alarm_led_store` (and likewise
`pwr_led_store`) accepts `green`, the matching show accessor prints `on`, not
`green`. -/
theorem alarm_pwr_led_green_reads_on :
    (alarm_led_store (all_ports 0) ['g', 'r', 'e', 'e', 'n'] 5).ret = 5 ∧
    (alarm_led_show (alarm_led_store (all_ports 0) ['g', 'r', 'e', 'e', 'n'] 5).state).buf
      = ['o', 'n', NL] ∧
    (pwr_led_store (all_ports 0) ['g', 'r', 'e', 'e', 'n'] 5).ret = 5 ∧
    (pwr_led_show (pwr_led_store (all_ports 0) ['g', 'r', 'e', 'e', 'n'] 5).state).buf
      = ['o', 'n', NL] :=
  ⟨rfl, rfl, rfl, rfl⟩

/-! ## C4: the PSU enable stores never clear the bit -/

/-- C4. Evaluation at the failing input: with `PSU_STAT` holding 0x03,
`psuL_enb_store` and `psuR_enb_store` on the text `0` succeed, leave the register at
0x03 and the show accessors still print `1`. -/
theorem psu_enb_store_zero_keeps_bit :
    (psuL_enb_store (all_ports 0x03) ['0'] 1).ret = 1 ∧
    (psuL_enb_store (all_ports 0x03) ['0'] 1).state.regs PSU_STAT = 0x03 ∧
    (psuL_enb_show (psuL_enb_store (all_ports 0x03) ['0'] 1).state).buf = ['1', NL] ∧
    (psuR_enb_store (all_ports 0x03) ['0'] 1).ret = 1 ∧
    (psuR_enb_store (all_ports 0x03) ['0'] 1).state.regs PSU_STAT = 0x03 ∧
    (psuR_enb_show (psuR_enb_store (all_ports 0x03) ['0'] 1).state).buf = ['1', NL] :=
  ⟨rfl, rfl, rfl, rfl, rfl, rfl⟩
/-! ## Facts about `kstrtol`, the decode table and the PSU enable stores -/

theorem kstrtoull_core_error (s : List Char) (base : Nat) (e : Int)
    (h : kstrtoull_core s base = Except.error e) : e = -EINVAL ∨ e = -ERANGE := by
  unfold kstrtoull_core at h
  simp only at h
  split_ifs at h <;> (injection h with h; simp [← h])

theorem kstrtoull_error (s : List Char) (base : Nat) (e : Int)
    (h : kstrtoull s base = Except.error e) : e = -EINVAL ∨ e = -ERANGE := by
  unfold kstrtoull at h
  split at h
  · split_ifs at h <;> exact kstrtoull_core_error _ _ _ h
  · exact kstrtoull_core_error _ _ _ h

theorem kstrtol_error (s : List Char) (base : Nat) (e : Int)
    (h : kstrtol s base = Except.error e) : e = -EINVAL ∨ e = -ERANGE := by
  unfold kstrtol at h
  split at h
  · split_ifs at h
    · split at h
      · rename_i e1 h1
        injection h with h; subst h; exact kstrtoull_core_error _ _ _ h1
      · split_ifs at h
        · injection h with h; simp [← h]
    · split at h
      · rename_i e1 h1
        injection h with h; subst h; exact kstrtoull_error _ _ _ h1
      · split_ifs at h
        · injection h with h; simp [← h]
  · split at h
    · rename_i e1 h1
      injection h with h; subst h; exact kstrtoull_error _ _ _ h1
    · split_ifs at h
      · injection h with h; simp [← h]

set_option maxRecDepth 100000

theorem sys_led_show_all_ports : ∀ b < 256,
    (sys_led_show (all_ports b)).buf = sys_led_table ((b >>> 4) &&& 3) (b &&& 3) ++ [NL] := by
  decide

theorem all_ports_regs (b p : Nat) : (all_ports b).regs p = b := rfl

theorem psu_enb_store_of_error (s : Cpld) (enb : Nat) (buf : List Char) (size : Nat) (e : Int)
    (h : kstrtol (cstr buf) 0 = Except.error e) :
    psu_enb_store s enb buf size = ⟨mutex_unlock (mutex_lock s), e⟩ := by
  simp [psu_enb_store, h]

theorem psu_enb_store_of_ok (s : Cpld) (enb : Nat) (buf : List Char) (size : Nat) (v : Int)
    (h : kstrtol (cstr buf) 0 = Except.ok v) :
    (psu_enb_store s enb buf size).ret = size ∧
    (psu_enb_store s enb buf size).state.regs =
      setPort s.regs PSU_STAT ((s.regs PSU_STAT % 256 ||| low_bit v <<< enb) % 256) ∧
    (psu_enb_store s enb buf size).state.read_addr = s.read_addr := by
  simp [psu_enb_store, h, inb, outb, mutex_lock, mutex_unlock]

/-! ## C5: the PSU enable stores accept every integer -/

/-- C5. Evaluation at the failing input: the text `3` parses to the integer 3, which
is neither 0 nor 1, yet `psuL_enb_store` and `psuR_enb_store` return the size 1
instead of `-EINVAL` and change `PSU_STAT` from 0 to 1 and to 2; `sfp_txdis_store`
rejects the same text with `-EINVAL`. -/
theorem psu_enb_store_accepts_three :
    kstrtol (cstr ['3']) 0 = Except.ok 3 ∧
    (all_ports 0).regs PSU_STAT = 0 ∧
    (psuL_enb_store (all_ports 0) ['3'] 1).ret = 1 ∧
    (psuL_enb_store (all_ports 0) ['3'] 1).ret ≠ -EINVAL ∧
    (psuL_enb_store (all_ports 0) ['3'] 1).state.regs PSU_STAT = 1 ∧
    (psuR_enb_store (all_ports 0) ['3'] 1).ret = 1 ∧
    (psuR_enb_store (all_ports 0) ['3'] 1).ret ≠ -EINVAL ∧
    (psuR_enb_store (all_ports 0) ['3'] 1).state.regs PSU_STAT = 2 ∧
    (sfp_txdis_store (all_ports 0) 1 ['3'] 1).ret = -EINVAL :=
  ⟨rfl, rfl, rfl, by decide, rfl, rfl, by decide, rfl, rfl⟩

/-! ## C6: the status LED decode table -/

/-- C6. For every content of `LED_SYS`, with `b` the byte `inb` returns,
`color = (b >> 4) & 3` and `control = b & 3`: `sys_led_show` prints the entry of the
fixed table for `(color, control)` followed by a newline; the eight unlisted pairs
(colour Off, control Off, and On with SolidOn) print `off`; the text is the one
printed for `b` with bits 7:6 and 3:2 cleared; and it is always one of the nine
tokens. -/
theorem sys_led_show_decode_table (s : Cpld) :
    (sys_led_show s).buf =
      sys_led_table (((s.regs LED_SYS % 256) >>> 4) &&& 3) (s.regs LED_SYS % 256 &&& 3) ++ [NL] ∧
    ((((s.regs LED_SYS % 256) >>> 4) &&& 3 = 3 ∨ s.regs LED_SYS % 256 &&& 3 = 0 ∨
        (((s.regs LED_SYS % 256) >>> 4) &&& 3 = 0 ∧ s.regs LED_SYS % 256 &&& 3 = 3)) →
      (sys_led_show s).buf = ['o', 'f', 'f', NL]) ∧
    (sys_led_show s).buf = (sys_led_show (all_ports (s.regs LED_SYS % 256 &&& 0x33))).buf ∧
    (∃ t ∈ sys_led_tokens, (sys_led_show s).buf = t ++ [NL]) ∧
    (sys_led_show s).ret = (sys_led_show s).buf.length := by
  have hb : s.regs LED_SYS % 256 < 256 := Nat.mod_lt _ (by norm_num)
  have hret : (sys_led_show s).ret = (sys_led_show s).buf.length := rfl
  refine ⟨?_, ?_, ?_, ?_, hret⟩ <;> clear hret
  all_goals
    have hs : (sys_led_show s).buf = (sys_led_show (all_ports (s.regs LED_SYS % 256))).buf :=
      sys_led_show_buf_congr _ _ (by simp [all_ports_regs])
    rw [hs]
    generalize s.regs LED_SYS % 256 = b at hb
    revert b
    decide

theorem sys_led_show_decode_table_witness :
    (sys_led_show (all_ports 0xCF)).buf = ['o', 'f', 'f', NL] ∧
    (sys_led_show (all_ports 0xE6)).buf =
      ['g', 'r', 'n', '_', 'b', 'n', 'k', '_', '4', 'h', 'z', NL] :=
  ⟨(sys_led_show_decode_table (all_ports 0xCF)).2.1 (by decide),
   (sys_led_show_decode_table (all_ports 0xE6)).1⟩

/-! ## Facts about the single-bit stores -/

theorem sfp_txdis_store_of_zero (s : Cpld) (index : Nat) (buf : List Char) (size : Nat)
    (h : kstrtol (cstr buf) 0 = Except.ok 0) :
    (sfp_txdis_store s index buf size).ret = size ∧
    (sfp_txdis_store s index buf size).state.regs =
      setPort s.regs PRT_LPMOD_TXDIS
        ((s.regs PRT_LPMOD_TXDIS % 256 &&& (0xFF &&& cnot (0x1 <<< (index - 1)))) % 256) ∧
    (sfp_txdis_store s index buf size).state.read_addr = s.read_addr := by
  simp [sfp_txdis_store, h, inb, outb, mutex_lock, mutex_unlock]

theorem sfp_txdis_store_of_one (s : Cpld) (index : Nat) (buf : List Char) (size : Nat)
    (h : kstrtol (cstr buf) 0 = Except.ok 1) :
    (sfp_txdis_store s index buf size).ret = size ∧
    (sfp_txdis_store s index buf size).state.regs =
      setPort s.regs PRT_LPMOD_TXDIS
        ((s.regs PRT_LPMOD_TXDIS % 256 ||| (0x1 <<< (index - 1))) % 256) ∧
    (sfp_txdis_store s index buf size).state.read_addr = s.read_addr := by
  simp [sfp_txdis_store, h, inb, outb, mutex_lock, mutex_unlock]

theorem setPort_same (regs : Nat → Nat) (p v : Nat) : setPort regs p v p = v := by
  simp [setPort]

theorem setPort_other (regs : Nat → Nat) (p v q : Nat) (h : q ≠ p) :
    setPort regs p v q = regs q := by
  simp [setPort, h]

/-- The clearing mask of `sfp_txdis_store` for bit `k` of a byte. -/
theorem clear_mask_eq (k : Nat) (hk : k < 8) :
    0xFF &&& cnot (0x1 <<< k) = 0xFF ^^^ (1 <<< k) := by
  interval_cases k <;> rfl

theorem clear_mask_testBit (k i : Nat) (hk : k < 8) (hi : i < 8) :
    (0xFF &&& cnot (0x1 <<< k)).testBit i = decide (i ≠ k) := by
  interval_cases k <;> interval_cases i <;> rfl

theorem set_mask_testBit (k i : Nat) : (1 <<< k).testBit i = decide (k = i) := by
  rw [Nat.one_shiftLeft, Nat.testBit_two_pow]

theorem testBit_mod_256 (x i : Nat) :
    (x % 256).testBit i = (decide (i < 8) && x.testBit i) :=
  Nat.testBit_mod_two_pow x 8 i

theorem testBit_255 (i : Nat) (hi : i < 8) : Nat.testBit 255 i = true := by
  interval_cases i <;> rfl

theorem set_mask_lt (k : Nat) (hk : k < 8) : 1 <<< k < 2 ^ 8 := by
  interval_cases k <;> decide

/-! ## C7: the SFP tx-disable store changes the bit of its port -/

/-- C7. For every port index 1..8 and every content `b` of the tx-disable register
(as read by `inb`), `sfp_txdis_store` on the text `1` returns the size and leaves the
register at `b | (1 << (index-1))`; on the text `0` it returns the size and leaves it
at `b & ~(1 << (index-1))` (within the byte: `b & (0xFF ^ (1 << (index-1)))`); and
when that bit of `b` was clear, writing `1` and then `0` restores `b`. -/
theorem sfp_txdis_store_sets_and_clears_port_bit (s : Cpld) (index size : Nat)
    (h1 : 1 ≤ index) (h8 : index ≤ 8) :
    (sfp_txdis_store s index ['1'] size).ret = size ∧
    (sfp_txdis_store s index ['1'] size).state.regs PRT_LPMOD_TXDIS =
      (s.regs PRT_LPMOD_TXDIS % 256) ||| (1 <<< (index - 1)) ∧
    (sfp_txdis_store s index ['0'] size).ret = size ∧
    (sfp_txdis_store s index ['0'] size).state.regs PRT_LPMOD_TXDIS =
      (s.regs PRT_LPMOD_TXDIS % 256) &&& (0xFF ^^^ (1 <<< (index - 1))) ∧
    ((s.regs PRT_LPMOD_TXDIS % 256).testBit (index - 1) = false →
      (sfp_txdis_store (sfp_txdis_store s index ['1'] size).state index ['0'] size).state.regs
        PRT_LPMOD_TXDIS = s.regs PRT_LPMOD_TXDIS % 256) := by
  have hk : index - 1 < 8 := by omega
  have hb : s.regs PRT_LPMOD_TXDIS % 256 < 2 ^ 8 := Nat.mod_lt _ (by norm_num)
  have hset : ∀ st : Cpld, (sfp_txdis_store st index ['1'] size).state.regs PRT_LPMOD_TXDIS =
      (st.regs PRT_LPMOD_TXDIS % 256) ||| (1 <<< (index - 1)) := by
    intro st
    rw [(sfp_txdis_store_of_one st index ['1'] size rfl).2.1, setPort_same]
    exact Nat.mod_eq_of_lt (Nat.or_lt_two_pow (Nat.mod_lt _ (by norm_num)) (set_mask_lt _ hk))
  have hclr : ∀ st : Cpld, (sfp_txdis_store st index ['0'] size).state.regs PRT_LPMOD_TXDIS =
      (st.regs PRT_LPMOD_TXDIS % 256) &&& (0xFF ^^^ (1 <<< (index - 1))) := by
    intro st
    rw [(sfp_txdis_store_of_zero st index ['0'] size rfl).2.1, setPort_same, clear_mask_eq _ hk]
    exact Nat.mod_eq_of_lt (Nat.lt_of_le_of_lt Nat.and_le_left (Nat.mod_lt _ (by norm_num)))
  refine ⟨(sfp_txdis_store_of_one s index ['1'] size rfl).1, hset s,
    (sfp_txdis_store_of_zero s index ['0'] size rfl).1, hclr s, ?_⟩
  intro hbit
  rw [hclr, hset]
  generalize s.regs PRT_LPMOD_TXDIS % 256 = b at hb hbit
  apply Nat.eq_of_testBit_eq
  intro i
  simp only [Nat.testBit_and, Nat.testBit_or, Nat.testBit_xor, testBit_mod_256,
    set_mask_testBit]
  by_cases hik : index - 1 = i
  · subst hik
    simp [hbit, hk, testBit_255 _ hk]
  · by_cases hi : i < 8
    · simp [hik, hi, testBit_255 _ hi]
    · have hbi : b.testBit i = false :=
        Nat.testBit_lt_two_pow (Nat.lt_of_lt_of_le hb (Nat.pow_le_pow_right (by norm_num) (by omega)))
      simp [hik, hi, hbi]

theorem sfp_txdis_store_sets_and_clears_port_bit_witness :
    (1 ≤ 3 ∧ 3 ≤ 8) ∧
    (sfp_txdis_store (all_ports 0xA1) 3 ['1'] 1).state.regs PRT_LPMOD_TXDIS = 0xA5 ∧
    (sfp_txdis_store (all_ports 0xA5) 3 ['0'] 1).state.regs PRT_LPMOD_TXDIS = 0xA1 :=
  ⟨by decide,
   (sfp_txdis_store_sets_and_clears_port_bit (all_ports 0xA1) 3 1 (by decide) (by decide)).2.1,
   (sfp_txdis_store_sets_and_clears_port_bit (all_ports 0xA5) 3 1 (by decide) (by decide)).2.2.2.1⟩

/-! ## C8: single-bit stores leave the other bits and the other registers alone -/

/-- C8. For every accepted input (a text `kstrtol` parses to 0 or 1) and every prior
state: `sfp_txdis_store` for port index 1..8 keeps every bit of the tx-disable
register other than bit `index-1` and every other port; `psuL_enb_store` keeps every
bit of `PSU_STAT` other than bit 0 and every other port; `psuR_enb_store` keeps every
bit other than bit 1 and every other port. The stored value is a byte. -/
theorem single_bit_store_isolation (s : Cpld) (index : Nat) (buf : List Char) (size : Nat)
    (v : Int) (h1 : 1 ≤ index) (h8 : index ≤ 8) (hv : kstrtol (cstr buf) 0 = Except.ok v)
    (h01 : v = 0 ∨ v = 1) :
    ((∀ i, i < 8 → i ≠ index - 1 →
        ((sfp_txdis_store s index buf size).state.regs PRT_LPMOD_TXDIS).testBit i =
          (s.regs PRT_LPMOD_TXDIS).testBit i) ∧
      (sfp_txdis_store s index buf size).state.regs PRT_LPMOD_TXDIS < 256 ∧
      (∀ p, p ≠ PRT_LPMOD_TXDIS → (sfp_txdis_store s index buf size).state.regs p = s.regs p)) ∧
    ((∀ i, i < 8 → i ≠ PSUL_ENB →
        ((psuL_enb_store s buf size).state.regs PSU_STAT).testBit i =
          (s.regs PSU_STAT).testBit i) ∧
      (psuL_enb_store s buf size).state.regs PSU_STAT < 256 ∧
      (∀ p, p ≠ PSU_STAT → (psuL_enb_store s buf size).state.regs p = s.regs p)) ∧
    ((∀ i, i < 8 → i ≠ PSUR_ENB →
        ((psuR_enb_store s buf size).state.regs PSU_STAT).testBit i =
          (s.regs PSU_STAT).testBit i) ∧
      (psuR_enb_store s buf size).state.regs PSU_STAT < 256 ∧
      (∀ p, p ≠ PSU_STAT → (psuR_enb_store s buf size).state.regs p = s.regs p)) := by
  have hk : index - 1 < 8 := by omega
  have hpsu : ∀ enb, enb < 8 →
      (∀ i, i < 8 → i ≠ enb →
        ((psu_enb_store s enb buf size).state.regs PSU_STAT).testBit i =
          (s.regs PSU_STAT).testBit i) ∧
      (psu_enb_store s enb buf size).state.regs PSU_STAT < 256 ∧
      (∀ p, p ≠ PSU_STAT → (psu_enb_store s enb buf size).state.regs p = s.regs p) := by
    intro enb henb
    rw [(psu_enb_store_of_ok s enb buf size v hv).2.1]
    refine ⟨?_, ?_, fun p hp => setPort_other _ _ _ _ hp⟩
    · intro i hi hne
      rw [setPort_same]
      rcases h01 with rfl | rfl
      · have : low_bit 0 = 0 := rfl
        simp [this, testBit_mod_256, hi]
      · have : low_bit 1 = 1 := rfl
        simp only [this, testBit_mod_256, Nat.testBit_or, set_mask_testBit]
        simp [hi, Ne.symm hne]
    · rw [setPort_same]
      exact Nat.mod_lt _ (by norm_num)
  refine ⟨?_, hpsu PSUL_ENB (by decide), hpsu PSUR_ENB (by decide)⟩
  rcases h01 with rfl | rfl
  · rw [(sfp_txdis_store_of_zero s index buf size hv).2.1]
    refine ⟨?_, ?_, fun p hp => setPort_other _ _ _ _ hp⟩
    · intro i hi hne
      rw [setPort_same]
      simp only [testBit_mod_256, Nat.testBit_and, clear_mask_testBit _ _ hk hi]
      simp [hi, hne]
    · rw [setPort_same]
      exact Nat.mod_lt _ (by norm_num)
  · rw [(sfp_txdis_store_of_one s index buf size hv).2.1]
    refine ⟨?_, ?_, fun p hp => setPort_other _ _ _ _ hp⟩
    · intro i hi hne
      rw [setPort_same]
      simp only [testBit_mod_256, Nat.testBit_or, set_mask_testBit]
      simp [hi, Ne.symm hne]
    · rw [setPort_same]
      exact Nat.mod_lt _ (by norm_num)

theorem single_bit_store_isolation_witness :
    (1 ≤ 3 ∧ 3 ≤ 8 ∧ kstrtol (cstr ['1', NL]) 0 = Except.ok 1) ∧
    ((sfp_txdis_store (all_ports 0xA1) 3 ['1', NL] 2).state.regs PRT_LPMOD_TXDIS).testBit 7 =
      ((all_ports 0xA1).regs PRT_LPMOD_TXDIS).testBit 7 ∧
    (psuR_enb_store (all_ports 0xA1) ['1', NL] 2).state.regs LED_SYS =
      (all_ports 0xA1).regs LED_SYS :=
  ⟨⟨by decide, by decide, rfl⟩,
   (single_bit_store_isolation (all_ports 0xA1) 3 ['1', NL] 2 1 (by decide) (by decide) rfl
      (Or.inr rfl)).1.1 7 (by decide) (by decide),
   (single_bit_store_isolation (all_ports 0xA1) 3 ['1', NL] 2 1 (by decide) (by decide) rfl
      (Or.inr rfl)).2.2.2.2 LED_SYS (by decide)⟩

/-! ## Hexadecimal numerals and `simple_strtoul` -/

theorem digit_val_lt (c : Char) (v : Nat) (h : digit_val c = some v) : v < 16 := by
  unfold digit_val at h
  simp only at h
  split_ifs at h with h1 h2
  · injection h with h; omega
  · injection h with h; omega

theorem isxdigit_not_x (c : Char) (h : isxdigit c = true) : (c.toNat ||| 0x20) ≠ 120 := by
  unfold isxdigit digit_val at h
  simp only at h
  split_ifs at h with h1 h2
  · obtain ⟨ha, hb⟩ := h1
    generalize c.toNat = n at ha hb
    interval_cases n <;> decide
  · omega
  · simp at h

theorem isxdigit_ne_space (c : Char) (h : isxdigit c = true) : c ≠ ' ' := by
  rintro rfl
  exact absurd h (by decide)

theorem isxdigit_ne_NUL (c : Char) (h : isxdigit c = true) : c ≠ NUL := by
  rintro rfl
  exact absurd h (by decide)

theorem hex_step_modEq (m : Nat) (ds : List Char) : ∀ a b : Nat, a ≡ b [MOD m] →
    ds.foldl (fun acc c => acc * 16 + (digit_val c).getD 0) a ≡
      ds.foldl (fun acc c => acc * 16 + (digit_val c).getD 0) b [MOD m] := by
  induction ds with
  | nil => intro a b h; simpa using h
  | cons c ds ih =>
    intro a b h
    simp only [List.foldl_cons]
    exact ih _ _ ((h.mul_right 16).add_right _)

/-- On a string of hexadecimal digits the `_parse_integer` loop in base 16 consumes
every character and accumulates the denoted value modulo `2^64`. -/
theorem parse_integer_loop_hex (ds : List Char) (hds : ∀ c ∈ ds, isxdigit c = true) :
    ∀ res rv ov, res < 2 ^ 64 →
      (parse_integer_loop 16 ds res rv ov).res =
        ds.foldl (fun acc c => acc * 16 + (digit_val c).getD 0) res % 2 ^ 64 ∧
      (parse_integer_loop 16 ds res rv ov).rv = rv + ds.length := by
  induction ds with
  | nil =>
    intro res rv ov hres
    simp only [parse_integer_loop, List.foldl_nil, List.length_nil, Nat.add_zero, and_true]
    exact (Nat.mod_eq_of_lt hres).symm
  | cons c ds ih =>
    intro res rv ov hres
    have hc : isxdigit c = true := hds c (List.mem_cons_self _ _)
    have hrest : ∀ x ∈ ds, isxdigit x = true := fun x hx => hds x (List.mem_cons_of_mem _ hx)
    unfold isxdigit at hc
    obtain ⟨val, hval⟩ := Option.isSome_iff_exists.mp hc
    have hlt : val < 16 := digit_val_lt c val hval
    have hnot : ¬ val ≥ 16 := by omega
    simp only [parse_integer_loop, hval, hnot, if_false, List.foldl_cons, Option.getD_some,
      List.length_cons]
    obtain ⟨h1, h2⟩ := ih hrest ((res * 16 + val) % 2 ^ 64) (rv + 1)
      (ov || (decide (res &&& (0xF <<< 60) ≠ 0) && decide (res > (2 ^ 64 - 1 - val) / 16)))
      (Nat.mod_lt _ (by norm_num))
    refine ⟨?_, ?_⟩
    · rw [h1]
      exact hex_step_modEq _ ds _ _ (Nat.mod_modEq _ _)
    · rw [h2]; omega

theorem parse_integer_fixup_radix_hex (ds : List Char) (hds : ∀ c ∈ ds, isxdigit c = true) :
    parse_integer_fixup_radix ds 16 = (ds, 16) := by
  unfold parse_integer_fixup_radix
  match ds, hds with
  | [], _ => simp
  | [_], _ => simp
  | c0 :: c1 :: rest, hds =>
    have h1 : isxdigit c1 = true := hds c1 (by simp)
    simp [isxdigit_not_x c1 h1]

/-- The driver's `strtoul(tok, &last, 16)` on a hexadecimal numeral: the denoted
value modulo `2^64`, with `last` at the end of the numeral. -/
theorem simple_strtoul_hex (ds : List Char) (hds : ∀ c ∈ ds, isxdigit c = true) :
    simple_strtoul ds 16 = (hex_value ds % 2 ^ 64, ds.length) := by
  have h := parse_integer_loop_hex ds hds 0 0 false (by norm_num)
  simp only [simple_strtoul, parse_integer_fixup_radix_hex ds hds, parse_integer, h.1, h.2,
    hex_value]
  simp

theorem cstr_eq_self (l : List Char) (h : ∀ c ∈ l, c ≠ NUL) : cstr l = l := by
  unfold cstr
  rw [List.takeWhile_eq_self_iff]
  intro c hc
  simpa using h c hc

theorem strsep_space_found (da dv : List Char) (hda : ∀ c ∈ da, isxdigit c = true) :
    strsep (some (da ++ ' ' :: dv)) [' '] = (some da, some dv) := by
  have hp : ∀ c ∈ da, (fun c => !([' '] : List Char).contains c) c = true := by
    intro c hc
    simpa using isxdigit_ne_space c (hda c hc)
  simp only [strsep, List.span_eq_take_drop]
  rw [List.takeWhile_append_of_pos hp, List.dropWhile_append_of_pos hp]
  simp

theorem strsep_space_last (dv : List Char) (hdv : ∀ c ∈ dv, isxdigit c = true) :
    strsep (some dv) [' '] = (some dv, none) := by
  have hp : ∀ c ∈ dv, (fun c => !([' '] : List Char).contains c) c = true := by
    intro c hc
    simpa using isxdigit_ne_space c (hdv c hc)
  simp only [strsep, List.span_eq_take_drop]
  rw [List.takeWhile_eq_self_iff.mpr hp, List.dropWhile_eq_nil_iff.mpr hp]

theorem hex_digit_upper_val (d : Nat) (hd : d < 16) :
    digit_val (hex_digit_upper d) = some d := by
  interval_cases d <;> rfl

/-- Every 16-bit address has a hexadecimal numeral: its four upper-case digits. -/
theorem hex4_isHexNumeral (a : Nat) (ha : a < 2 ^ 16) : IsHexNumeral (hex4 a) a := by
  have h3 := hex_digit_upper_val (a / 4096 % 16) (Nat.mod_lt _ (by norm_num))
  have h2 := hex_digit_upper_val (a / 256 % 16) (Nat.mod_lt _ (by norm_num))
  have h1 := hex_digit_upper_val (a / 16 % 16) (Nat.mod_lt _ (by norm_num))
  have h0 := hex_digit_upper_val (a % 16) (Nat.mod_lt _ (by norm_num))
  refine ⟨by simp [hex4], ?_, ?_⟩
  · intro c hc
    simp only [hex4, List.mem_cons, List.mem_singleton, List.not_mem_nil, or_false] at hc
    rcases hc with rfl | rfl | rfl | rfl <;> simp [isxdigit, h3, h2, h1, h0]
  · simp only [hex_value, hex4, List.foldl_cons, List.foldl_nil, h3, h2, h1, h0,
      Option.getD_some]
    norm_num at ha
    omega

/-- Every byte has a hexadecimal numeral: its two upper-case digits. -/
theorem hex2_isHexNumeral (v : Nat) (hv : v < 2 ^ 8) : IsHexNumeral (hex2 v) v := by
  have h1 := hex_digit_upper_val (v / 16 % 16) (Nat.mod_lt _ (by norm_num))
  have h0 := hex_digit_upper_val (v % 16) (Nat.mod_lt _ (by norm_num))
  refine ⟨by simp [hex2], ?_, ?_⟩
  · intro c hc
    simp only [hex2, List.mem_cons, List.mem_singleton, List.not_mem_nil, or_false] at hc
    rcases hc with rfl | rfl <;> simp [isxdigit, h1, h0]
  · simp only [hex_value, hex2, List.foldl_cons, List.foldl_nil, h1, h0, Option.getD_some]
    norm_num at hv
    omega

/-! ## C9: `setreg` copies the text into an array one byte too small -/

/-- The call is marked `faulted` exactly when the state already was or the C string
of the input, with its terminating NUL, does not fit `clone[count]`. -/
theorem setreg_store_faulted (s : Cpld) (buf : List Char) (count : Nat) :
    (setreg_store s buf count).state.faulted =
      (decide (count ≤ (cstr buf).length) || s.faulted) := by
  have h0 : (strcpy_into s count (cstr buf)).2.faulted =
      (decide (count ≤ (cstr buf).length) || s.faulted) := by
    by_cases h : count ≤ (cstr buf).length
    · rw [strcpy_into_overrun s count _ h]
      simp [h]
    · rw [strcpy_into_fits s count _ (by omega)]
      simp [h]
  unfold setreg_store
  simp only
  split
  · exact h0
  · split_ifs
    · exact h0
    · split
      · exact h0
      · split_ifs <;> exact h0

/-- A text without NUL handed over with its own length as `count`, as a sysfs write
does, always overruns the array. -/
theorem setreg_store_overruns_on_text (s : Cpld) (buf : List Char) (h : ∀ c ∈ buf, c ≠ NUL) :
    (setreg_store s buf buf.length).state.faulted = true := by
  rw [setreg_store_faulted, cstr_eq_self buf h]
  simp

/-- C9. Evaluation at the failing input: on the text `0000A101 000005A` with count 16,
and likewise on `A101 5A` with count 7, `strcpy` writes `count + 1` bytes into
`clone[count]`: the call runs past the end of the array (from a state that was not
faulted), so that its behaviour is undefined in C. -/
theorem setreg_store_overruns_clone :
    (all_ports 0).faulted = false ∧
    (setreg_store (all_ports 0)
      ['0', '0', '0', '0', 'A', '1', '0', '1', ' ', '0', '0', '0', '0', '0', '5', 'A']
      16).state.faulted = true ∧
    (setreg_store (all_ports 0) ['A', '1', '0', '1', ' ', '5', 'A'] 7).state.faulted = true ∧
    (strcpy_into (all_ports 0) 7 (cstr ['A', '1', '0', '1', ' ', '5', 'A'])).1.length + 1 = 8 :=
  ⟨rfl, rfl, rfl, rfl⟩

/-! ## The selected address is only changed by `getreg_store` -/

theorem sprintf_0x22x_byte : ∀ b < 256, sprintf_0x22x b = hex_byte_text b := by
  decide

theorem getreg_show_buf (s : Cpld) :
    (getreg_show s).buf = hex_byte_text (s.regs s.read_addr % 256) := by
  have h := sprintf_0x22x_byte (s.regs s.read_addr % 256) (Nat.mod_lt _ (by norm_num))
  simpa [getreg_show, inb, mutex_lock, mutex_unlock] using h

theorem scratch_store_read_addr (s : Cpld) (buf : List Char) (count : Nat) :
    (scratch_store s buf count).state.read_addr = s.read_addr := by
  unfold scratch_store
  simp only
  split_ifs <;> rfl

theorem setreg_store_read_addr (s : Cpld) (buf : List Char) (count : Nat) :
    (setreg_store s buf count).state.read_addr = s.read_addr := by
  have h0 := strcpy_into_read_addr s count (cstr buf)
  unfold setreg_store
  simp only
  split
  · exact h0
  · split_ifs
    · exact h0
    · split
      · exact h0
      · split_ifs <;> exact h0

theorem alarm_led_store_read_addr (s : Cpld) (buf : List Char) (count : Nat) :
    (alarm_led_store s buf count).state.read_addr = s.read_addr := by
  unfold alarm_led_store
  simp only
  split <;> rfl

theorem pwr_led_store_read_addr (s : Cpld) (buf : List Char) (count : Nat) :
    (pwr_led_store s buf count).state.read_addr = s.read_addr := by
  unfold pwr_led_store
  simp only
  split <;> rfl

theorem psu_enb_store_read_addr (s : Cpld) (enb : Nat) (buf : List Char) (size : Nat) :
    (psu_enb_store s enb buf size).state.read_addr = s.read_addr := by
  unfold psu_enb_store
  simp only
  split <;> rfl

theorem sfp_txdis_store_read_addr (s : Cpld) (index : Nat) (buf : List Char) (size : Nat) :
    (sfp_txdis_store s index buf size).state.read_addr = s.read_addr := by
  unfold sfp_txdis_store
  simp only
  split
  · rfl
  · split_ifs <;> rfl

theorem getreg_store_rejected (s : Cpld) (buf : List Char) (count : Nat)
    (h : (getreg_store s buf count).ret < 0) : (getreg_store s buf count).state = s := by
  unfold getreg_store at h ⊢
  simp only at h ⊢
  split_ifs at h ⊢
  · rfl
  · exact absurd h (by simp)

/-- A call that is not a successful `getreg_store` keeps the selected address. -/
theorem step_read_addr (s : Cpld) (c : Call)
    (h : ∀ buf n, c = Call.getreg_store buf n → (getreg_store s buf n).ret < 0) :
    (step s c).read_addr = s.read_addr := by
  cases c with
  | getreg_store buf n =>
    simp only [step]
    rw [getreg_store_rejected s buf n (h buf n rfl)]
  | scratch_store buf count => exact scratch_store_read_addr s buf count
  | setreg_store buf count => exact setreg_store_read_addr s buf count
  | alarm_led_store buf count => exact alarm_led_store_read_addr s buf count
  | pwr_led_store buf count => exact pwr_led_store_read_addr s buf count
  | psuL_enb_store buf size => exact psu_enb_store_read_addr s PSUL_ENB buf size
  | psuR_enb_store buf size => exact psu_enb_store_read_addr s PSUR_ENB buf size
  | sfp_txdis_store index buf size => exact sfp_txdis_store_read_addr s index buf size
  | _ => rfl

theorem run_read_addr (calls : List Call) : ∀ s : Cpld,
    (∀ c ∈ calls, ∀ buf n, c = Call.getreg_store buf n →
      ∀ st : Cpld, (getreg_store st buf n).ret < 0) →
    (run s calls).read_addr = s.read_addr := by
  induction calls with
  | nil => intro s _; rfl
  | cons c calls ih =>
    intro s h
    have hc := step_read_addr s c (fun buf n e => h c (List.mem_cons_self _ _) buf n e s)
    have hrest := ih (step s c) (fun c1 h1 => h c1 (List.mem_cons_of_mem _ h1))
    simp only [run, List.foldl_cons] at hrest ⊢
    rw [hrest, hc]

/-! ## C10: `getreg` reads back the selected address -/

/-- C10. For every 16-bit address `a`, every hexadecimal numeral `da` of it and every
prior state: `getreg_store` on `da` returns the count, selects `a` and changes no
port; `getreg_show` then prints `0x`, the two hexadecimal digits of the byte at port
`a` and a newline. The selection persists: after any sequence of accessor calls
containing no successful `getreg_store`, the selected address is still `a` and
`getreg_show` prints the byte then held at port `a`. -/
theorem getreg_reads_selected_address (s : Cpld) (da : List Char) (a count : Nat)
    (ha : IsHexNumeral da a) (ha16 : a < 2 ^ 16) :
    (getreg_store s da count).ret = count ∧
    (getreg_store s da count).state.read_addr = a ∧
    (getreg_store s da count).state.regs = s.regs ∧
    (getreg_show (getreg_store s da count).state).buf = hex_byte_text (s.regs a % 256) ∧
    (∀ calls : List Call,
      (∀ c ∈ calls, ∀ buf n, c = Call.getreg_store buf n →
        ∀ st : Cpld, (getreg_store st buf n).ret < 0) →
      (run (getreg_store s da count).state calls).read_addr = a ∧
      (getreg_show (run (getreg_store s da count).state calls)).buf =
        hex_byte_text ((run (getreg_store s da count).state calls).regs a % 256)) := by
  obtain ⟨hane, hax, haval⟩ := ha
  have hc : cstr da = da := cstr_eq_self da (fun c hc => isxdigit_ne_NUL c (hax c hc))
  have hla : da.length ≠ 0 := by simpa using hane
  have hamod : hex_value da % 2 ^ 64 % 2 ^ 16 = a := by
    rw [haval]; omega
  have key : getreg_store s da count = ⟨{ s with read_addr := a }, count⟩ := by
    simp only [getreg_store, hc, simple_strtoul_hex da hax, hamod, hla, and_false, if_false]
  rw [key]
  refine ⟨rfl, rfl, rfl, ?_, ?_⟩
  · rw [getreg_show_buf]
  · intro calls hcalls
    have hr := run_read_addr calls { s with read_addr := a } hcalls
    refine ⟨hr, ?_⟩
    rw [getreg_show_buf, hr]

theorem getreg_reads_selected_address_witness :
    IsHexNumeral ['A', '1', '0', '0'] 0xA100 ∧
    (getreg_store (all_ports 0xAB) ['A', '1', '0', '0'] 4).ret = 4 ∧
    (getreg_show (getreg_store (all_ports 0xAB) ['A', '1', '0', '0'] 4).state).buf =
      ['0', 'x', 'a', 'b', NL] ∧
    (run (getreg_store (all_ports 0xAB) ['A', '1', '0', '0'] 4).state
      [Call.scratch_store ['1', '2'] 2, Call.getreg_store ['z'] 1, Call.getreg_show]).read_addr
      = 0xA100 :=
  ⟨by decide,
   (getreg_reads_selected_address (all_ports 0xAB) ['A', '1', '0', '0'] 0xA100 4 (by decide)
      (by decide)).1,
   (getreg_reads_selected_address (all_ports 0xAB) ['A', '1', '0', '0'] 0xA100 4 (by decide)
      (by decide)).2.2.2.1,
   ((getreg_reads_selected_address (all_ports 0xAB) ['A', '1', '0', '0'] 0xA100 4 (by decide)
      (by decide)).2.2.2.2
      [Call.scratch_store ['1', '2'] 2, Call.getreg_store ['z'] 1, Call.getreg_show]
      (by
        intro c hc buf n e st
        simp only [List.mem_cons, List.mem_singleton, List.not_mem_nil, or_false] at hc
        rcases hc with rfl | rfl | rfl
        · cases e
        · cases e
          have hz : (getreg_store st ['z'] 1).ret = -22 := rfl
          rw [hz]
          decide
        · cases e)).1⟩

/-! ## C11: the status LED encode table -/

theorem sys_led_store_other_ports (s : Cpld) (buf : List Char) (count data0 p : Nat)
    (hp : p ≠ LED_SYS) : (sys_led_store s buf count data0).state.regs p = s.regs p := by
  simp [sys_led_store, outb, mutex_lock, mutex_unlock, setPort, hp]

theorem sys_led_store_read_addr (s : Cpld) (buf : List Char) (count data0 : Nat) :
    (sys_led_store s buf count data0).state.read_addr = s.read_addr := rfl

/-- C11. For every row of the encode table and every prior state (and content of the
uninitialised local): `sys_led_store` on the row's token leaves `LED_SYS` holding
the row's byte, which is `(color << 4) | control` with bits 7:6 and 3:2 zero; every
other port and the selected address are unchanged. -/
theorem sys_led_store_encode_table (s : Cpld) (count data0 : Nat) (e : LedCode)
    (he : e ∈ sys_led_codes) :
    (sys_led_store s e.token count data0).state.regs LED_SYS = e.byte ∧
    e.byte = (e.color <<< 4) ||| e.control ∧
    e.byte &&& 0xCC = 0 ∧
    (∀ p, p ≠ LED_SYS → (sys_led_store s e.token count data0).state.regs p = s.regs p) ∧
    (sys_led_store s e.token count data0).state.read_addr = s.read_addr := by
  refine ⟨?_, ?_, ?_, fun p hp => sys_led_store_other_ports s _ count data0 p hp, rfl⟩
  all_goals
    simp only [sys_led_codes, List.mem_cons, List.mem_singleton, List.not_mem_nil,
      or_false] at he
    rcases he with rfl | rfl | rfl | rfl | rfl | rfl | rfl | rfl | rfl <;> rfl

theorem sys_led_store_encode_table_witness :
    (⟨['g', 'r', 'e', 'e', 'n'], 2, 3, 0x23⟩ : LedCode) ∈ sys_led_codes ∧
    (sys_led_store (all_ports 0xFF) ['g', 'r', 'e', 'e', 'n'] 5 0).state.regs 0xA143 = 0x23 :=
  ⟨by simp [sys_led_codes],
   (sys_led_store_encode_table (all_ports 0xFF) 5 0 ⟨['g', 'r', 'e', 'e', 'n'], 2, 3, 0x23⟩
      (by simp [sys_led_codes])).1⟩

/-! ## C12: the status LED store fails exactly on out-of-vocabulary text -/

/-- For a text `t` without newline, `sysfs_streq b t` holds exactly when `b` is `t` or
`t` followed by one newline. -/
theorem sysfs_streq_iff (t : List Char) : ∀ b : List Char, NL ∉ t →
    (sysfs_streq b t = true ↔ b = t ∨ b = t ++ [NL]) := by
  induction t with
  | nil =>
    intro b _
    cases b with
    | nil => simp [sysfs_streq]
    | cons c1 s1 =>
      cases s1 with
      | nil => simp [sysfs_streq]
      | cons c s => simp [sysfs_streq]
  | cons c2 s2 ih =>
    intro b ht
    have hc2 : c2 ≠ NL := fun h => ht (by simp [h])
    have hs2 : NL ∉ s2 := fun h => ht (List.mem_cons_of_mem _ h)
    cases b with
    | nil => simp [sysfs_streq, hc2]
    | cons c1 s1 =>
      by_cases hc : c1 = c2
      · subst hc
        simp [sysfs_streq, ih s1 hs2]
      · simp [sysfs_streq, hc]

theorem sys_led_token_iff (b : List Char) :
    (∃ t ∈ sys_led_tokens, b = t ∨ b = t ++ [NL]) ↔
      (sysfs_streq b LED_OFF = true ∨ sysfs_streq b LED_GREEN = true ∨
       sysfs_streq b LED_AMBER = true ∨ sysfs_streq b LED_HZ_GBNK = true ∨
       sysfs_streq b LED_HZ_ABNK = true ∨ sysfs_streq b LED_QHZ_GBNK = true ∨
       sysfs_streq b LED_QHZ_ABNK = true ∨ sysfs_streq b LED_HZ_GABNK = true ∨
       sysfs_streq b LED_QHZ_GABNK = true) := by
  rw [sysfs_streq_iff LED_OFF b (by decide), sysfs_streq_iff LED_GREEN b (by decide),
    sysfs_streq_iff LED_AMBER b (by decide), sysfs_streq_iff LED_HZ_GBNK b (by decide),
    sysfs_streq_iff LED_HZ_ABNK b (by decide), sysfs_streq_iff LED_QHZ_GBNK b (by decide),
    sysfs_streq_iff LED_QHZ_ABNK b (by decide), sysfs_streq_iff LED_HZ_GABNK b (by decide),
    sysfs_streq_iff LED_QHZ_GABNK b (by decide)]
  simp only [sys_led_tokens, List.mem_cons, List.mem_singleton, List.not_mem_nil, or_false,
    exists_eq_or_imp, exists_eq_left]

theorem count_ne_neg_EINVAL (count : Nat) : (count : Int) ≠ -EINVAL := by
  unfold EINVAL
  omega

theorem sys_led_store_ret_cases (s : Cpld) (buf : List Char) (count data0 : Nat) :
    ((∃ t ∈ sys_led_tokens, cstr buf = t ∨ cstr buf = t ++ [NL]) ∧
      (sys_led_store s buf count data0).ret = count) ∨
    ((¬ ∃ t ∈ sys_led_tokens, cstr buf = t ∨ cstr buf = t ++ [NL]) ∧
      (sys_led_store s buf count data0).ret = -EINVAL) := by
  rw [sys_led_token_iff]
  simp only [sys_led_store]
  split_ifs <;> simp [*]

/-- C12. `sys_led_store` returns `-EINVAL` exactly when the C string of the input is
none of the nine tokens, a single trailing newline ignored; otherwise it returns the
count. In particular it returns the count for each of the nine tokens. -/
theorem sys_led_store_fails_iff_unknown_token (s : Cpld) (buf : List Char)
    (count data0 : Nat) :
    ((sys_led_store s buf count data0).ret = -EINVAL ↔
      ¬ ∃ t ∈ sys_led_tokens, cstr buf = t ∨ cstr buf = t ++ [NL]) ∧
    ((∃ t ∈ sys_led_tokens, cstr buf = t ∨ cstr buf = t ++ [NL]) →
      (sys_led_store s buf count data0).ret = count) ∧
    (∀ t ∈ sys_led_tokens, (sys_led_store s t count data0).ret = count ∧
      (sys_led_store s (t ++ [NL]) count data0).ret = count) := by
  refine ⟨?_, ?_, ?_⟩
  · rcases sys_led_store_ret_cases s buf count data0 with ⟨hin, hr⟩ | ⟨hout, hr⟩
    · rw [hr]
      exact ⟨fun h => absurd h (count_ne_neg_EINVAL count), fun h => absurd hin h⟩
    · exact ⟨fun _ => hout, fun _ => hr⟩
  · intro hin
    rcases sys_led_store_ret_cases s buf count data0 with ⟨_, hr⟩ | ⟨hout, _⟩
    · exact hr
    · exact absurd hin hout
  · intro t ht
    simp only [sys_led_tokens, List.mem_cons, List.mem_singleton, List.not_mem_nil,
      or_false] at ht
    rcases ht with rfl | rfl | rfl | rfl | rfl | rfl | rfl | rfl | rfl <;> exact ⟨rfl, rfl⟩

theorem sys_led_store_fails_iff_unknown_token_witness :
    (sys_led_store (all_ports 0) ['o', 'n'] 2 0).ret = -EINVAL ∧
    (sys_led_store (all_ports 0) ['a', 'm', 'b', 'e', 'r', NL] 6 0).ret = 6 :=
  ⟨(sys_led_store_fails_iff_unknown_token (all_ports 0) ['o', 'n'] 2 0).1.mpr (by decide),
   (sys_led_store_fails_iff_unknown_token (all_ports 0) ['a', 'm', 'b', 'e', 'r', NL] 6 0).2.1
     ⟨LED_AMBER, by decide, Or.inr rfl⟩⟩

/-! ## C13: rejected writes change nothing -/

theorem count_not_neg (count : Nat) : ¬ ((count : Int) < 0) := by omega

theorem scratch_store_rejected (s : Cpld) (buf : List Char) (count : Nat)
    (h : (scratch_store s buf count).ret < 0) :
    (scratch_store s buf count).state.regs = s.regs ∧
    (scratch_store s buf count).state.read_addr = s.read_addr := by
  unfold scratch_store at h ⊢
  simp only at h ⊢
  split_ifs at h ⊢
  · exact ⟨rfl, rfl⟩
  · exact absurd h (count_not_neg count)

theorem setreg_store_rejected (s : Cpld) (buf : List Char) (count : Nat)
    (h : (setreg_store s buf count).ret < 0) :
    (setreg_store s buf count).state.regs = s.regs ∧
    (setreg_store s buf count).state.read_addr = s.read_addr := by
  have h0 : (mutex_unlock (mutex_lock (strcpy_into s count (cstr buf)).2)).regs = s.regs ∧
      (mutex_unlock (mutex_lock (strcpy_into s count (cstr buf)).2)).read_addr = s.read_addr :=
    ⟨strcpy_into_regs s count (cstr buf), strcpy_into_read_addr s count (cstr buf)⟩
  unfold setreg_store at h ⊢
  simp only at h ⊢
  split at h
  · exact h0
  · split_ifs at h ⊢
    · exact h0
    · split at h
      · exact h0
      · split_ifs at h ⊢
        · exact h0
        · exact absurd h (count_not_neg count)

theorem alarm_led_store_rejected (s : Cpld) (buf : List Char) (count : Nat)
    (h : (alarm_led_store s buf count).ret < 0) :
    (alarm_led_store s buf count).state = s := by
  unfold alarm_led_store at h ⊢
  simp only at h ⊢
  split at h
  · rfl
  · exact absurd h (count_not_neg count)

theorem pwr_led_store_rejected (s : Cpld) (buf : List Char) (count : Nat)
    (h : (pwr_led_store s buf count).ret < 0) :
    (pwr_led_store s buf count).state = s := by
  unfold pwr_led_store at h ⊢
  simp only at h ⊢
  split at h
  · rfl
  · exact absurd h (count_not_neg count)

theorem sfp_txdis_store_rejected (s : Cpld) (index : Nat) (buf : List Char) (size : Nat)
    (h : (sfp_txdis_store s index buf size).ret < 0) :
    (sfp_txdis_store s index buf size).state = mutex_unlock (mutex_lock s) := by
  unfold sfp_txdis_store at h ⊢
  simp only at h ⊢
  split at h
  · rfl
  · split_ifs at h ⊢
    · exact absurd h (count_not_neg size)
    · exact absurd h (count_not_neg size)
    · rfl

/-- C13. Whenever `setreg_store`, `scratch_store`, `getreg_store`, `alarm_led_store`,
`pwr_led_store` or `sfp_txdis_store` returns a negative value, every port and the
selected `getreg` address hold what they held before the call. -/
theorem rejected_store_changes_nothing (s : Cpld) (index : Nat) (buf : List Char)
    (count : Nat) :
    ((setreg_store s buf count).ret < 0 →
      (setreg_store s buf count).state.regs = s.regs ∧
      (setreg_store s buf count).state.read_addr = s.read_addr) ∧
    ((scratch_store s buf count).ret < 0 →
      (scratch_store s buf count).state.regs = s.regs ∧
      (scratch_store s buf count).state.read_addr = s.read_addr) ∧
    ((getreg_store s buf count).ret < 0 →
      (getreg_store s buf count).state.regs = s.regs ∧
      (getreg_store s buf count).state.read_addr = s.read_addr) ∧
    ((alarm_led_store s buf count).ret < 0 →
      (alarm_led_store s buf count).state.regs = s.regs ∧
      (alarm_led_store s buf count).state.read_addr = s.read_addr) ∧
    ((pwr_led_store s buf count).ret < 0 →
      (pwr_led_store s buf count).state.regs = s.regs ∧
      (pwr_led_store s buf count).state.read_addr = s.read_addr) ∧
    ((sfp_txdis_store s index buf count).ret < 0 →
      (sfp_txdis_store s index buf count).state.regs = s.regs ∧
      (sfp_txdis_store s index buf count).state.read_addr = s.read_addr) := by
  refine ⟨setreg_store_rejected s buf count, scratch_store_rejected s buf count, ?_, ?_, ?_, ?_⟩
  · intro h
    rw [getreg_store_rejected s buf count h]
    exact ⟨rfl, rfl⟩
  · intro h
    rw [alarm_led_store_rejected s buf count h]
    exact ⟨rfl, rfl⟩
  · intro h
    rw [pwr_led_store_rejected s buf count h]
    exact ⟨rfl, rfl⟩
  · intro h
    rw [sfp_txdis_store_rejected s index buf count h]
    exact ⟨rfl, rfl⟩

theorem rejected_store_changes_nothing_witness :
    (setreg_store (all_ports 7) ['A', '1', '0', '1', ' ', 'z'] 6).ret = -22 ∧
    (setreg_store (all_ports 7) ['A', '1', '0', '1', ' ', 'z'] 6).state.regs =
      (all_ports 7).regs ∧
    (sfp_txdis_store (all_ports 7) 3 ['2'] 1).ret = -22 ∧
    (sfp_txdis_store (all_ports 7) 3 ['2'] 1).state.regs = (all_ports 7).regs :=
  ⟨rfl,
   ((rejected_store_changes_nothing (all_ports 7) 3 ['A', '1', '0', '1', ' ', 'z'] 6).1
      (by decide)).1,
   rfl,
   ((rejected_store_changes_nothing (all_ports 7) 3 ['2'] 1).2.2.2.2.2 (by decide)).1⟩

/-! ## C14: input validation of the SFP tx-disable store -/

/-- C14. For every port index and every text that `kstrtol` parses to an integer `v`:
when `v` is neither 0 nor 1, `sfp_txdis_store` returns `-EINVAL`, only takes and
releases the lock (no port access is logged) and leaves every port and the selected
address as they were; when `v` is 0 or 1 it returns the size. -/
theorem sfp_txdis_store_validation (s : Cpld) (index : Nat) (buf : List Char) (size : Nat)
    (v : Int) (hv : kstrtol (cstr buf) 0 = Except.ok v) :
    ((v ≠ 0 ∧ v ≠ 1) →
      (sfp_txdis_store s index buf size).ret = -EINVAL ∧
      (sfp_txdis_store s index buf size).state.trace =
        s.trace ++ [Event.lock, Event.unlock] ∧
      (sfp_txdis_store s index buf size).state.regs = s.regs ∧
      (sfp_txdis_store s index buf size).state.read_addr = s.read_addr) ∧
    ((v = 0 ∨ v = 1) → (sfp_txdis_store s index buf size).ret = size) := by
  constructor
  · rintro ⟨h0, h1⟩
    simp [sfp_txdis_store, hv, h0, h1, mutex_lock, mutex_unlock]
  · rintro (rfl | rfl)
    · exact (sfp_txdis_store_of_zero s index buf size hv).1
    · exact (sfp_txdis_store_of_one s index buf size hv).1

theorem sfp_txdis_store_validation_witness :
    kstrtol (cstr ['-', '1']) 0 = Except.ok (-1) ∧
    (sfp_txdis_store (all_ports 7) 8 ['-', '1'] 2).ret = -EINVAL ∧
    (sfp_txdis_store (all_ports 7) 8 ['-', '1'] 2).state.trace = [Event.lock, Event.unlock] ∧
    (sfp_txdis_store (all_ports 7) 8 ['0', NL] 2).ret = 2 :=
  ⟨rfl,
   ((sfp_txdis_store_validation (all_ports 7) 8 ['-', '1'] 2 (-1) rfl).1 (by decide)).1,
   ((sfp_txdis_store_validation (all_ports 7) 8 ['-', '1'] 2 (-1) rfl).1 (by decide)).2.1,
   (sfp_txdis_store_validation (all_ports 7) 8 ['0', NL] 2 0 rfl).2 (Or.inl rfl)⟩

/-! ## C15: the single-bit reads -/

theorem and_one_eq_testBit_zero (y : Nat) : y &&& 1 = if y.testBit 0 then 1 else 0 := by
  rw [Nat.and_one_is_mod, Nat.testBit_zero]
  rcases Nat.mod_two_eq_zero_or_one y with h | h <;> simp [h]

/-- Shifting the byte read from a port right by `k < 8` and masking with 1 yields
bit `k` of the port content. -/
theorem byte_bit_extract (x k : Nat) (hk : k < 8) :
    ((x % 256) >>> k) &&& 1 = if x.testBit k then 1 else 0 := by
  rw [and_one_eq_testBit_zero, Nat.testBit_shiftRight, Nat.add_zero, testBit_mod_256]
  simp [hk]

theorem byte_and_255 (x : Nat) : x % 256 &&& 0xFF = x % 256 := by
  apply Nat.eq_of_testBit_eq
  intro i
  rw [Nat.testBit_and, testBit_mod_256]
  by_cases hi : i < 8
  · simp [hi, testBit_255 i hi]
  · simp [hi]

theorem sprintf_d_bit (b : Bool) : sprintf_d (if b then 1 else 0) = bit_text b := by
  cases b <;> rfl

theorem psu_bit_show_buf (s : Cpld) (bit : Nat) (hbit : bit < 8) :
    (psu_bit_show s bit).buf = bit_text ((s.regs PSU_STAT).testBit bit) ∧
    (psu_bit_show s bit).ret = 2 := by
  have h : (psu_bit_show s bit).buf = sprintf_d (((s.regs PSU_STAT % 256) >>> bit) &&& 1) := rfl
  have hr : (psu_bit_show s bit).ret = ((psu_bit_show s bit).buf.length : Int) := rfl
  rw [hr, h, byte_bit_extract _ _ hbit, sprintf_d_bit]
  exact ⟨rfl, rfl⟩

theorem sfp_bit_show_buf (s : Cpld) (port index : Nat) (h1 : 1 ≤ index) (h8 : index ≤ 8) :
    (sfp_bit_show s port index).buf = bit_text ((s.regs port).testBit (index - 1)) ∧
    (sfp_bit_show s port index).ret = 2 := by
  have h : (sfp_bit_show s port index).buf =
      sprintf_d ((((s.regs port % 256) &&& 0xFF) >>> (index - 1)) &&& 0x1) := rfl
  have hr : (sfp_bit_show s port index).ret = ((sfp_bit_show s port index).buf.length : Int) :=
    rfl
  rw [hr, h, byte_and_255, byte_bit_extract _ _ (by omega), sprintf_d_bit]
  exact ⟨rfl, rfl⟩

/-- C15. For every state: the six PSU reads print bit 4 (`psuL_prs`), 5 (`psuR_prs`),
2 (`psuL_status`), 3 (`psuR_status`), 0 (`psuL_enb`) and 1 (`psuR_enb`) of the port
0xA141; for every port index 1..8 the SFP reads print bit `index-1` of the port
0xA147 (`txfault`), 0xA148 (`rxlos`), 0xA149 (`modabs`) and 0xA14A (`txdis`). Each
text is `0` or `1` followed by a newline. -/
theorem single_bit_reads (s : Cpld) (index : Nat) (h1 : 1 ≤ index) (h8 : index ≤ 8) :
    (psuL_prs_show s).buf = bit_text ((s.regs 0xA141).testBit 4) ∧
    (psuR_prs_show s).buf = bit_text ((s.regs 0xA141).testBit 5) ∧
    (psuL_status_show s).buf = bit_text ((s.regs 0xA141).testBit 2) ∧
    (psuR_status_show s).buf = bit_text ((s.regs 0xA141).testBit 3) ∧
    (psuL_enb_show s).buf = bit_text ((s.regs 0xA141).testBit 0) ∧
    (psuR_enb_show s).buf = bit_text ((s.regs 0xA141).testBit 1) ∧
    (sfp_txfault_show s index).buf = bit_text ((s.regs 0xA147).testBit (index - 1)) ∧
    (sfp_rxlos_show s index).buf = bit_text ((s.regs 0xA148).testBit (index - 1)) ∧
    (sfp_modabs_show s index).buf = bit_text ((s.regs 0xA149).testBit (index - 1)) ∧
    (sfp_txdis_show s index).buf = bit_text ((s.regs 0xA14A).testBit (index - 1)) ∧
    (∀ b : Bool, bit_text b = ['0', NL] ∨ bit_text b = ['1', NL]) :=
  ⟨(psu_bit_show_buf s PSUL_PRS (by decide)).1,
   (psu_bit_show_buf s PSUR_PRS (by decide)).1,
   (psu_bit_show_buf s PSUL_PWOK (by decide)).1,
   (psu_bit_show_buf s PSUR_PWOK (by decide)).1,
   (psu_bit_show_buf s PSUL_ENB (by decide)).1,
   (psu_bit_show_buf s PSUR_ENB (by decide)).1,
   (sfp_bit_show_buf s PRT_MDSL_TXFLT index h1 h8).1,
   (sfp_bit_show_buf s PRT_INT_RXLOS index h1 h8).1,
   (sfp_bit_show_buf s PRT_PRSNT_MODABS index h1 h8).1,
   (sfp_bit_show_buf s PRT_LPMOD_TXDIS index h1 h8).1,
   fun b => by cases b <;> simp [bit_text]⟩

theorem single_bit_reads_witness :
    (1 ≤ 8 ∧ 8 ≤ 8) ∧
    (psuL_prs_show (all_ports 0x90)).buf = ['1', NL] ∧
    (sfp_modabs_show (all_ports 0x90) 8).buf = ['1', NL] :=
  ⟨by decide,
   (single_bit_reads (all_ports 0x90) 8 (by decide) (by decide)).1,
   (single_bit_reads (all_ports 0x90) 8 (by decide) (by decide)).2.2.2.2.2.2.2.2.1⟩

/-! ## C16: scratch round trip -/

theorem scratch_show_buf (s : Cpld) :
    (scratch_show s).buf = hex_byte_text (s.regs SCRATCH % 256) ∧ (scratch_show s).ret = 5 := by
  have h := sprintf_0x22x_byte (s.regs SCRATCH % 256) (Nat.mod_lt _ (by norm_num))
  have hb : (scratch_show s).buf = sprintf_0x22x (s.regs SCRATCH % 256) := rfl
  have hr : (scratch_show s).ret = ((scratch_show s).buf.length : Int) := rfl
  rw [hr, hb, h]
  exact ⟨rfl, rfl⟩

theorem version_show_buf (s : Cpld) :
    (version_show s).buf = hex_byte_text (s.regs VERSION % 256) ∧ (version_show s).ret = 5 := by
  have h := sprintf_0x22x_byte (s.regs VERSION % 256) (Nat.mod_lt _ (by norm_num))
  have hb : (version_show s).buf = sprintf_0x22x (s.regs VERSION % 256) := rfl
  have hr : (version_show s).ret = ((version_show s).buf.length : Int) := rfl
  rw [hr, hb, h]
  exact ⟨rfl, rfl⟩

theorem getreg_show_ret (s : Cpld) : (getreg_show s).ret = 5 := by
  have hr : (getreg_show s).ret = ((getreg_show s).buf.length : Int) := rfl
  rw [hr, getreg_show_buf]
  rfl

/-- On a hexadecimal numeral of a byte `scratch_store` writes that byte to `SCRATCH`. -/
theorem scratch_store_numeral (s : Cpld) (dv : List Char) (v count : Nat)
    (hv : IsHexNumeral dv v) (hv8 : v < 2 ^ 8) :
    scratch_store s dv count = ⟨mutex_unlock (outb (mutex_lock s) v SCRATCH), count⟩ := by
  obtain ⟨hvne, hvx, hvval⟩ := hv
  have hc : cstr dv = dv := cstr_eq_self dv (fun c hc => isxdigit_ne_NUL c (hvx c hc))
  have hlv : dv.length ≠ 0 := by simpa using hvne
  have hvmod : hex_value dv % 2 ^ 64 % 2 ^ 16 = v := by
    rw [hvval]; omega
  simp only [scratch_store, hc, simple_strtoul_hex dv hvx, hvmod, hlv, and_false, if_false]

/-- C16. For every byte `v` (0 included), every hexadecimal numeral `dv` of it and
every prior state: `scratch_store` on `dv` returns the count and leaves `SCRATCH`
holding `v`; the following `scratch_show` prints `0x`, the two hexadecimal digits of
`v` and a newline; every port other than `SCRATCH` and the selected address are
unchanged. -/
theorem scratch_store_show_round_trip (s : Cpld) (dv : List Char) (v count : Nat)
    (hv : IsHexNumeral dv v) (hv8 : v < 2 ^ 8) :
    (scratch_store s dv count).ret = count ∧
    (scratch_store s dv count).state.regs 0xA101 = v ∧
    (scratch_show (scratch_store s dv count).state).buf = hex_byte_text v ∧
    (∀ p, p ≠ 0xA101 → (scratch_store s dv count).state.regs p = s.regs p) ∧
    (scratch_store s dv count).state.read_addr = s.read_addr := by
  have hv256 : v % 256 = v := Nat.mod_eq_of_lt hv8
  have hreg : (mutex_unlock (outb (mutex_lock s) v SCRATCH)).regs SCRATCH = v := by
    simp [mutex_unlock, outb, mutex_lock, setPort, hv256]
  rw [scratch_store_numeral s dv v count hv hv8]
  refine ⟨rfl, hreg, ?_, ?_, rfl⟩
  · rw [(scratch_show_buf _).1, hreg, hv256]
  · intro p hp
    have hp1 : p ≠ SCRATCH := hp
    simp [mutex_unlock, outb, mutex_lock, setPort, hp1]

theorem scratch_store_show_round_trip_witness :
    IsHexNumeral ['0', '0'] 0 ∧
    (scratch_store (all_ports 0xEE) ['0', '0'] 2).ret = 2 ∧
    (scratch_show (scratch_store (all_ports 0xEE) ['0', '0'] 2).state).buf =
      ['0', 'x', '0', '0', NL] :=
  ⟨by decide,
   (scratch_store_show_round_trip (all_ports 0xEE) ['0', '0'] 0 2 (by decide) (by decide)).1,
   (scratch_store_show_round_trip (all_ports 0xEE) ['0', '0'] 0 2 (by decide) (by decide)).2.2.1⟩

/-! ## C19: the hexadecimal output format -/

theorem hex_byte_text_digits : ∀ b < 256,
    hex_byte_text b =
      ['0', 'x', lower_hex_digits.getD (b / 16) '0', lower_hex_digits.getD (b % 16) '0', NL] := by
  decide

/-- C19. For every state, `version_show`, `scratch_show` and `getreg_show` print the
byte `b` they read (from `VERSION`, `SCRATCH` and the selected address) as exactly
five characters: `0`, `x`, the lower-case hexadecimal digit of `b / 16`, that of
`b % 16`, and a newline; each returns 5. -/
theorem hex_output_format (s : Cpld) :
    ((version_show s).buf =
        ['0', 'x', lower_hex_digits.getD (s.regs 0xA100 % 256 / 16) '0',
          lower_hex_digits.getD (s.regs 0xA100 % 256 % 16) '0', NL] ∧
      (version_show s).ret = 5) ∧
    ((scratch_show s).buf =
        ['0', 'x', lower_hex_digits.getD (s.regs 0xA101 % 256 / 16) '0',
          lower_hex_digits.getD (s.regs 0xA101 % 256 % 16) '0', NL] ∧
      (scratch_show s).ret = 5) ∧
    ((getreg_show s).buf =
        ['0', 'x', lower_hex_digits.getD (s.regs s.read_addr % 256 / 16) '0',
          lower_hex_digits.getD (s.regs s.read_addr % 256 % 16) '0', NL] ∧
      (getreg_show s).ret = 5) := by
  refine ⟨⟨?_, (version_show_buf s).2⟩, ⟨?_, (scratch_show_buf s).2⟩, ⟨?_, getreg_show_ret s⟩⟩
  · rw [(version_show_buf s).1]
    exact hex_byte_text_digits _ (Nat.mod_lt _ (by norm_num))
  · rw [(scratch_show_buf s).1]
    exact hex_byte_text_digits _ (Nat.mod_lt _ (by norm_num))
  · rw [getreg_show_buf s]
    exact hex_byte_text_digits _ (Nat.mod_lt _ (by norm_num))

/-! ## C17: the separator of `setreg` is one space -/

theorem cstr_append_of_no_NUL (l r : List Char) (h : ∀ c ∈ l, c ≠ NUL) :
    cstr (l ++ r) = l ++ cstr r := by
  unfold cstr
  exact List.takeWhile_append_of_pos (fun c hc => by simpa using h c hc)

theorem cstr_no_NUL (buf : List Char) : ∀ c ∈ cstr buf, c ≠ NUL := by
  intro c hc
  have := List.mem_takeWhile_imp hc
  simpa using this

theorem strcpy_into_fst (s : Cpld) (size : Nat) (src : List Char) :
    (strcpy_into s size src).1 = src := rfl

/-- When the C string of the input is a numeral, one space and a numeral,
`setreg_store` performs one port write: the value modulo 256 at the address modulo
65536. -/
theorem setreg_store_numerals (s : Cpld) (buf da dv : List Char) (a v count : Nat)
    (hb : cstr buf = da ++ ' ' :: dv) (ha : IsHexNumeral da a) (hv : IsHexNumeral dv v) :
    setreg_store s buf count =
      ⟨mutex_unlock (outb (mutex_lock (strcpy_into s count (cstr buf)).2) (v % 256)
        (a % 65536)), count⟩ := by
  obtain ⟨hane, hax, haval⟩ := ha
  obtain ⟨hvne, hvx, hvval⟩ := hv
  have hla : da.length ≠ 0 := by simpa using hane
  have hlv : dv.length ≠ 0 := by simpa using hvne
  have hamod : hex_value da % 2 ^ 64 % 2 ^ 16 = a % 65536 := by
    rw [haval]; omega
  have hvmod : hex_value dv % 2 ^ 64 % 2 ^ 8 = v % 256 := by
    rw [hvval]; omega
  have h1 : strsep (some (cstr buf)) [' '] = (some da, some dv) := by
    rw [hb]; exact strsep_space_found da dv hax
  simp only [setreg_store, strcpy_into_fst, h1, strsep_space_last dv hvx,
    simple_strtoul_hex da hax, simple_strtoul_hex dv hvx, hamod, hvmod, hla, hlv, and_false,
    if_false]

/-- A second space right after the first makes the value token empty: rejected. -/
theorem setreg_store_double_space (s : Cpld) (buf da rest : List Char) (a count : Nat)
    (hb : cstr buf = da ++ ' ' :: ' ' :: rest) (ha : IsHexNumeral da a) :
    setreg_store s buf count =
      ⟨mutex_unlock (mutex_lock (strcpy_into s count (cstr buf)).2), -EINVAL⟩ := by
  obtain ⟨hane, hax, _⟩ := ha
  have hla : da.length ≠ 0 := by simpa using hane
  have h1 : strsep (some (cstr buf)) [' '] = (some da, some (' ' :: rest)) := by
    rw [hb]; exact strsep_space_found da (' ' :: rest) hax
  have h2 : strsep (some (' ' :: rest)) [' '] = (some [], some rest) := by
    simp [strsep, List.span_eq_take_drop]
  have h3 : simple_strtoul [] 16 = (0, 0) := rfl
  simp only [setreg_store, strcpy_into_fst, h1, h2, h3, simple_strtoul_hex da hax, hla,
    and_false, if_false, Nat.zero_mod, and_self, if_true]

/-- Without any space there is no second token: rejected. -/
theorem setreg_store_no_space (s : Cpld) (buf : List Char) (count : Nat)
    (h : ' ' ∉ cstr buf) :
    setreg_store s buf count =
      ⟨mutex_unlock (mutex_lock (strcpy_into s count (cstr buf)).2), -EINVAL⟩ := by
  have hp : ∀ c ∈ cstr buf, (fun c => !([' '] : List Char).contains c) c = true := by
    intro c hc
    have : c ≠ ' ' := fun e => h (e ▸ hc)
    simpa using this
  have h1 : strsep (some (cstr buf)) [' '] = (some (cstr buf), none) := by
    simp only [strsep, List.span_eq_take_drop]
    rw [List.takeWhile_eq_self_iff.mpr hp, List.dropWhile_eq_nil_iff.mpr hp]
  have h2 : strsep none [' '] = (none, none) := rfl
  simp only [setreg_store, strcpy_into_fst, h1, h2]
  split_ifs <;> rfl

/-- C17, counterexample. With two spaces, or with a tab, between the address and the
value `setreg_store` returns `-EINVAL` and the addressed port keeps its content. This
is so for the text followed by a NUL byte inside the count, where the copy into
`clone` fits, and for the bare text. -/
theorem setreg_store_rejects_two_spaces_and_tab :
    (setreg_store (all_ports 0) ['A', '1', '0', '1', ' ', ' ', '5', 'A', NUL] 9).ret
      = -EINVAL ∧
    (setreg_store (all_ports 0) ['A', '1', '0', '1', ' ', ' ', '5', 'A', NUL] 9).state.regs
      0xA101 = 0 ∧
    (setreg_store (all_ports 0) ['A', '1', '0', '1', ' ', ' ', '5', 'A', NUL] 9).state.faulted
      = false ∧
    (setreg_store (all_ports 0) ['A', '1', '0', '1', TAB, '5', 'A', NUL] 8).ret = -EINVAL ∧
    (setreg_store (all_ports 0) ['A', '1', '0', '1', TAB, '5', 'A', NUL] 8).state.regs 0xA101
      = 0 ∧
    (setreg_store (all_ports 0) ['A', '1', '0', '1', TAB, '5', 'A', NUL] 8).state.faulted
      = false ∧
    (setreg_store (all_ports 0) ['A', '1', '0', '1', ' ', ' ', '5', 'A'] 8).ret = -EINVAL ∧
    (setreg_store (all_ports 0) ['A', '1', '0', '1', ' ', ' ', '5', 'A'] 8).state.regs 0xA101
      = 0 ∧
    (setreg_store (all_ports 0) ['A', '1', '0', '1', TAB, '5', 'A'] 7).ret = -EINVAL ∧
    (setreg_store (all_ports 0) ['A', '1', '0', '1', TAB, '5', 'A'] 7).state.regs 0xA101 = 0 :=
  ⟨rfl, rfl, rfl, rfl, rfl, rfl, rfl, rfl, rfl, rfl⟩

/-- C17, amended. Let the C string of the input, with its terminating NUL, fit
`clone[count]`. `setreg_store` takes the address and the value as hexadecimal
numerals separated by exactly one space: then it returns the count, stores the byte
at the address and changes no other port. When a second space follows the first,
and when the text holds no space at all (as with a tab between the numerals), it
returns `-EINVAL` and changes no port. In all these cases the call stays within the
array. -/
theorem setreg_store_separator (s : Cpld) (buf da dv : List Char) (a v count : Nat)
    (ha : IsHexNumeral da a) (hv : IsHexNumeral dv v) (ha16 : a < 2 ^ 16) (hv8 : v < 2 ^ 8)
    (hfit : (cstr buf).length < count) :
    (cstr buf = da ++ ' ' :: dv →
      (setreg_store s buf count).ret = count ∧
      (setreg_store s buf count).state.regs a = v ∧
      (∀ p, p ≠ a → (setreg_store s buf count).state.regs p = s.regs p) ∧
      (setreg_store s buf count).state.faulted = s.faulted) ∧
    (∀ rest : List Char, cstr buf = da ++ ' ' :: ' ' :: rest →
      (setreg_store s buf count).ret = -EINVAL ∧
      (setreg_store s buf count).state.regs = s.regs ∧
      (setreg_store s buf count).state.faulted = s.faulted) ∧
    (cstr buf = da ++ TAB :: dv →
      (setreg_store s buf count).ret = -EINVAL ∧
      (setreg_store s buf count).state.regs = s.regs ∧
      (setreg_store s buf count).state.faulted = s.faulted) ∧
    (' ' ∉ cstr buf →
      (setreg_store s buf count).ret = -EINVAL ∧
      (setreg_store s buf count).state.regs = s.regs ∧
      (setreg_store s buf count).state.faulted = s.faulted) := by
  have hcopy : (strcpy_into s count (cstr buf)).2 = s := by
    rw [strcpy_into_fits s count _ hfit]
  have hnosp : ' ' ∉ cstr buf →
      (setreg_store s buf count).ret = -EINVAL ∧
      (setreg_store s buf count).state.regs = s.regs ∧
      (setreg_store s buf count).state.faulted = s.faulted := by
    intro h
    rw [setreg_store_no_space s buf count h, hcopy]
    exact ⟨rfl, rfl, rfl⟩
  refine ⟨?_, ?_, ?_, hnosp⟩
  · intro hb
    have ha1 : a % 65536 = a := Nat.mod_eq_of_lt ha16
    have hv1 : v % 256 = v := Nat.mod_eq_of_lt hv8
    rw [setreg_store_numerals s buf da dv a v count hb ha hv, hcopy, ha1, hv1]
    refine ⟨rfl, ?_, ?_, rfl⟩
    · simp [mutex_unlock, outb, mutex_lock, setPort, hv1]
    · intro p hp
      simp [mutex_unlock, outb, mutex_lock, setPort, hp]
  · intro rest hb
    rw [setreg_store_double_space s buf da rest a count hb ha, hcopy]
    exact ⟨rfl, rfl, rfl⟩
  · intro hb
    apply hnosp
    rw [hb]
    intro hin
    simp only [List.mem_append, List.mem_cons] at hin
    rcases hin with h | h | h
    · exact isxdigit_ne_space _ (ha.2.1 _ h) rfl
    · exact absurd h (by decide)
    · exact isxdigit_ne_space _ (hv.2.1 _ h) rfl

theorem setreg_store_separator_witness :
    (IsHexNumeral ['A', '1', '0', '1'] 0xA101 ∧ IsHexNumeral ['5', 'A'] 0x5A ∧
      (cstr ['A', '1', '0', '1', ' ', '5', 'A', NUL]).length < 8) ∧
    (setreg_store (all_ports 0) ['A', '1', '0', '1', ' ', '5', 'A', NUL] 8).ret = 8 ∧
    (setreg_store (all_ports 0) ['A', '1', '0', '1', ' ', '5', 'A', NUL] 8).state.regs 0xA101
      = 0x5A ∧
    (setreg_store (all_ports 0) ['A', '1', '0', '1', ' ', '5', 'A', NUL] 8).state.faulted
      = false ∧
    (setreg_store (all_ports 0) ['A', '1', '0', '1', ' ', ' ', '5', 'A', NUL] 9).ret
      = -EINVAL ∧
    (setreg_store (all_ports 0) ['A', '1', '0', '1', TAB, '5', 'A', NUL] 8).ret = -EINVAL :=
  ⟨by decide,
   ((setreg_store_separator (all_ports 0) ['A', '1', '0', '1', ' ', '5', 'A', NUL]
      ['A', '1', '0', '1'] ['5', 'A'] 0xA101 0x5A 8
      (by decide) (by decide) (by decide) (by decide) (by decide)).1 rfl).1,
   ((setreg_store_separator (all_ports 0) ['A', '1', '0', '1', ' ', '5', 'A', NUL]
      ['A', '1', '0', '1'] ['5', 'A'] 0xA101 0x5A 8
      (by decide) (by decide) (by decide) (by decide) (by decide)).1 rfl).2.1,
   ((setreg_store_separator (all_ports 0) ['A', '1', '0', '1', ' ', '5', 'A', NUL]
      ['A', '1', '0', '1'] ['5', 'A'] 0xA101 0x5A 8
      (by decide) (by decide) (by decide) (by decide) (by decide)).1 rfl).2.2.2,
   ((setreg_store_separator (all_ports 0) ['A', '1', '0', '1', ' ', ' ', '5', 'A', NUL]
      ['A', '1', '0', '1'] ['5', 'A'] 0xA101 0x5A 9
      (by decide) (by decide) (by decide) (by decide) (by decide)).2.1 ['5', 'A'] rfl).1,
   ((setreg_store_separator (all_ports 0) ['A', '1', '0', '1', TAB, '5', 'A', NUL]
      ['A', '1', '0', '1'] ['5', 'A'] 0xA101 0x5A 8
      (by decide) (by decide) (by decide) (by decide) (by decide)).2.2.1 rfl).1⟩

/-! ## C18: the 3-state decode falls back to `off` -/

theorem pwr_led_show_buf_congr (s s1 : Cpld)
    (h : s.regs LED_ALARM % 256 = s1.regs LED_ALARM % 256) :
    (pwr_led_show s).buf = (pwr_led_show s1).buf := by
  simp [pwr_led_show, inb, mutex_lock, mutex_unlock, h]

theorem alarm_led_show_all_ports : ∀ b < 256,
    ((b &&& 3 = 3 ∨ b &&& 3 = 0) → (alarm_led_show (all_ports b)).buf = ['o', 'f', 'f', NL]) ∧
    (alarm_led_show (all_ports b)).buf = (alarm_led_show (all_ports (b &&& 3))).buf := by
  decide

theorem pwr_led_show_all_ports : ∀ b < 256,
    ((b &&& 3 = 3 ∨ b &&& 3 = 0) → (pwr_led_show (all_ports b)).buf = ['o', 'f', 'f', NL]) ∧
    (pwr_led_show (all_ports b)).buf = (pwr_led_show (all_ports (b &&& 3))).buf := by
  decide

/-- C18. Let `b` be the byte `alarm_led_show` and `pwr_led_show` read (both read the
port `LED_ALARM`). When bits 1:0 of `b` are 3 or 0, both print `off` and a newline;
and what each prints is what it prints for `b` with bits 7:2 cleared. -/
theorem three_state_decode_default (s : Cpld) :
    ((s.regs LED_ALARM % 256 &&& 3 = 3 ∨ s.regs LED_ALARM % 256 &&& 3 = 0) →
      (alarm_led_show s).buf = ['o', 'f', 'f', NL] ∧
      (pwr_led_show s).buf = ['o', 'f', 'f', NL]) ∧
    (alarm_led_show s).buf = (alarm_led_show (all_ports (s.regs LED_ALARM % 256 &&& 3))).buf ∧
    (pwr_led_show s).buf = (pwr_led_show (all_ports (s.regs LED_ALARM % 256 &&& 3))).buf := by
  have hb : s.regs LED_ALARM % 256 < 256 := Nat.mod_lt _ (by norm_num)
  have ha : (alarm_led_show s).buf = (alarm_led_show (all_ports (s.regs LED_ALARM % 256))).buf :=
    alarm_led_show_buf_congr _ _ (by simp [all_ports_regs])
  have hp : (pwr_led_show s).buf = (pwr_led_show (all_ports (s.regs LED_ALARM % 256))).buf :=
    pwr_led_show_buf_congr _ _ (by simp [all_ports_regs])
  rw [ha, hp]
  have h1 := alarm_led_show_all_ports _ hb
  have h2 := pwr_led_show_all_ports _ hb
  exact ⟨fun h => ⟨h1.1 h, h2.1 h⟩, h1.2, h2.2⟩

theorem three_state_decode_default_witness :
    (alarm_led_show (all_ports 0xA7)).buf = ['o', 'f', 'f', NL] ∧
    (pwr_led_show (all_ports 0xA7)).buf = ['o', 'f', 'f', NL] :=
  (three_state_decode_default (all_ports 0xA7)).1 (by decide)

/-! ## C20: lock discipline -/

theorem isTransaction_ok (ev : List Event) (h : IsTransaction ev) :
    lock_discipline false ev = true ∧ acquisitions ev ≤ 1 := by
  rcases h with rfl | rfl | ⟨p, rfl⟩ | ⟨v, p, rfl⟩ | ⟨p, v, q, rfl⟩ <;>
    simp [lock_discipline, acquisitions]

theorem extends_refl (s : Cpld) : Extends s s :=
  ⟨[], by simp, Or.inl rfl, fun h => h⟩

theorem extends_select (s : Cpld) (a : Nat) : Extends s { s with read_addr := a } :=
  ⟨[], by simp, Or.inl rfl, fun h => h⟩

theorem extends_empty (s : Cpld) : Extends s (mutex_unlock (mutex_lock s)) :=
  ⟨[Event.lock, Event.unlock], by simp [mutex_lock, mutex_unlock], Or.inr (Or.inl rfl),
    fun _ => rfl⟩

theorem extends_read (s : Cpld) (p : Nat) : Extends s (mutex_unlock (inb (mutex_lock s) p).2) :=
  ⟨[Event.lock, Event.inb p, Event.unlock], by simp [mutex_lock, mutex_unlock, inb],
    Or.inr (Or.inr (Or.inl ⟨p, rfl⟩)), fun _ => rfl⟩

theorem extends_write (s : Cpld) (v p : Nat) :
    Extends s (mutex_unlock (outb (mutex_lock s) v p)) :=
  ⟨[Event.lock, Event.outb (v % 256) p, Event.unlock], by simp [mutex_lock, mutex_unlock, outb],
    Or.inr (Or.inr (Or.inr (Or.inl ⟨_, p, rfl⟩))), fun _ => rfl⟩

theorem extends_read_write (s : Cpld) (p v q : Nat) :
    Extends s (mutex_unlock (outb (inb (mutex_lock s) p).2 v q)) :=
  ⟨[Event.lock, Event.inb p, Event.outb (v % 256) q, Event.unlock],
    by simp [mutex_lock, mutex_unlock, outb, inb],
    Or.inr (Or.inr (Or.inr (Or.inr ⟨p, _, q, rfl⟩))), fun _ => rfl⟩

theorem scratch_store_extends (s : Cpld) (buf : List Char) (count : Nat) :
    Extends s (scratch_store s buf count).state := by
  unfold scratch_store
  simp only
  split_ifs
  · exact extends_empty s
  · exact extends_write s _ _

theorem getreg_store_extends (s : Cpld) (buf : List Char) (count : Nat) :
    Extends s (getreg_store s buf count).state := by
  unfold getreg_store
  simp only
  split_ifs
  · exact extends_refl s
  · exact extends_select s _

theorem extends_after_copy (s : Cpld) (size : Nat) (src : List Char) (s1 : Cpld)
    (h : Extends (strcpy_into s size src).2 s1) : Extends s s1 := by
  obtain ⟨ev, htr, hev, hl⟩ := h
  rw [strcpy_into_trace] at htr
  rw [strcpy_into_locked] at hl
  exact ⟨ev, htr, hev, hl⟩

theorem setreg_store_extends (s : Cpld) (buf : List Char) (count : Nat) :
    Extends s (setreg_store s buf count).state := by
  apply extends_after_copy s count (cstr buf)
  unfold setreg_store
  simp only
  split
  · exact extends_empty _
  · split_ifs
    · exact extends_empty _
    · split
      · exact extends_empty _
      · split_ifs
        · exact extends_empty _
        · exact extends_write _ _ _

theorem alarm_led_store_extends (s : Cpld) (buf : List Char) (count : Nat) :
    Extends s (alarm_led_store s buf count).state := by
  unfold alarm_led_store
  simp only
  split
  · exact extends_refl s
  · exact extends_read_write s _ _ _

theorem pwr_led_store_extends (s : Cpld) (buf : List Char) (count : Nat) :
    Extends s (pwr_led_store s buf count).state := by
  unfold pwr_led_store
  simp only
  split
  · exact extends_refl s
  · exact extends_read_write s _ _ _

theorem psu_enb_store_extends (s : Cpld) (enb : Nat) (buf : List Char) (size : Nat) :
    Extends s (psu_enb_store s enb buf size).state := by
  unfold psu_enb_store
  simp only
  split
  · exact extends_empty s
  · exact extends_read_write s _ _ _

theorem sfp_txdis_store_extends (s : Cpld) (index : Nat) (buf : List Char) (size : Nat) :
    Extends s (sfp_txdis_store s index buf size).state := by
  unfold sfp_txdis_store
  simp only
  split
  · exact extends_empty s
  · split_ifs
    · exact extends_read_write s _ _ _
    · exact extends_read_write s _ _ _
    · exact extends_empty s

theorem step_extends (s : Cpld) (c : Call) : Extends s (step s c) := by
  cases c with
  | version_show => exact extends_read s VERSION
  | scratch_show => exact extends_read s SCRATCH
  | scratch_store buf count => exact scratch_store_extends s buf count
  | getreg_show => exact extends_read s s.read_addr
  | getreg_store buf count => exact getreg_store_extends s buf count
  | setreg_store buf count => exact setreg_store_extends s buf count
  | sys_led_show => exact extends_read s LED_SYS
  | sys_led_store buf count data0 => exact extends_write s _ LED_SYS
  | alarm_led_show => exact extends_read s LED_ALARM
  | alarm_led_store buf count => exact alarm_led_store_extends s buf count
  | pwr_led_show => exact extends_read s LED_ALARM
  | pwr_led_store buf count => exact pwr_led_store_extends s buf count
  | psuL_prs_show => exact extends_read s PSU_STAT
  | psuR_prs_show => exact extends_read s PSU_STAT
  | psuL_status_show => exact extends_read s PSU_STAT
  | psuR_status_show => exact extends_read s PSU_STAT
  | psuL_enb_show => exact extends_read s PSU_STAT
  | psuL_enb_store buf size => exact psu_enb_store_extends s PSUL_ENB buf size
  | psuR_enb_show => exact extends_read s PSU_STAT
  | psuR_enb_store buf size => exact psu_enb_store_extends s PSUR_ENB buf size
  | sfp_txfault_show index => exact extends_read s PRT_MDSL_TXFLT
  | sfp_modabs_show index => exact extends_read s PRT_PRSNT_MODABS
  | sfp_rxlos_show index => exact extends_read s PRT_INT_RXLOS
  | sfp_txdis_show index => exact extends_read s PRT_LPMOD_TXDIS
  | sfp_txdis_store index buf size => exact sfp_txdis_store_extends s index buf size

/-- C20. For every accessor call (every `*_show` and `*_store`, with any input) from
any state: the call only appends events to the log; replayed against a free lock,
these events never take the lock while it is held, perform every `inb` and `outb`
while it is held, and end with the lock released; the lock is taken at most once, so
the read and the write of a read-modify-write fall under one acquisition; and a
lock that is free on entry is free on return, on every path. -/
theorem accessors_keep_lock_discipline (s : Cpld) (c : Call) :
    (step s c).trace = s.trace ++ call_events s c ∧
    lock_discipline false (call_events s c) = true ∧
    acquisitions (call_events s c) ≤ 1 ∧
    (s.locked = false → (step s c).locked = false) := by
  obtain ⟨ev, htr, hev, hl⟩ := step_extends s c
  have hce : call_events s c = ev := by
    unfold call_events
    rw [htr, List.drop_left]
  rw [hce]
  exact ⟨htr, (isTransaction_ok ev hev).1, (isTransaction_ok ev hev).2, hl⟩

theorem accessors_keep_lock_discipline_witness :
    (all_ports 0).locked = false ∧
    call_events (all_ports 0) (Call.sfp_txdis_store 3 ['1'] 1) =
      [Event.lock, Event.inb 0xA14A, Event.outb 4 0xA14A, Event.unlock] ∧
    lock_discipline false (call_events (all_ports 0) (Call.sfp_txdis_store 3 ['1'] 1)) = true ∧
    (step (all_ports 0) (Call.sfp_txdis_store 3 ['1'] 1)).locked = false ∧
    (step (all_ports 0) (Call.alarm_led_store ['r', 'e', 'd'] 3)).locked = false :=
  ⟨rfl, rfl,
   (accessors_keep_lock_discipline (all_ports 0) (Call.sfp_txdis_store 3 ['1'] 1)).2.1,
   (accessors_keep_lock_discipline (all_ports 0) (Call.sfp_txdis_store 3 ['1'] 1)).2.2.2 rfl,
   (accessors_keep_lock_discipline (all_ports 0) (Call.alarm_led_store ['r', 'e', 'd'] 3)).2.2.2
     rfl⟩

/-! ## C22: the accessed ports and the declared I/O window -/

/-- C22. Evaluation at the failing input: `version_show` reads port 0xA100, above the
end 0x0255 of the declared window; in fact none of the nine ports the accessors use
lies inside the window 0x0200..0x0255. -/
theorem accessed_ports_outside_declared_window :
    (version_show (all_ports 0)).state.trace =
      [Event.lock, Event.inb 0xA100, Event.unlock] ∧
    ¬ (pddf_cpld_resources_start ≤ 0xA100 ∧ 0xA100 ≤ pddf_cpld_resources_end) ∧
    (∀ p ∈ accessed_ports,
      ¬ (pddf_cpld_resources_start ≤ p ∧ p ≤ pddf_cpld_resources_end)) :=
  ⟨rfl, by decide, by decide⟩

/-! ## C23: reads have no side effect -/

theorem sprintf_0x22x_length_pos (data : Nat) : 0 < (sprintf_0x22x data).length := by
  simp [sprintf_0x22x]

theorem sprintf_d_length_pos (data : Nat) : 0 < (sprintf_d data).length := by
  simp [sprintf_d]

theorem sprintf_s_length_pos (str : List Char) : 0 < (sprintf_s str).length := by
  simp [sprintf_s]

theorem psu_bit_show_pure (s : Cpld) (bit : Nat) :
    (psu_bit_show s bit).state.regs = s.regs ∧
    (psu_bit_show s bit).state.read_addr = s.read_addr ∧ 0 < (psu_bit_show s bit).ret := by
  refine ⟨rfl, rfl, ?_⟩
  have hr : (psu_bit_show s bit).ret = ((psu_bit_show s bit).buf.length : Int) := rfl
  rw [hr]
  exact Int.ofNat_lt.mpr (sprintf_d_length_pos _)

theorem sfp_bit_show_pure (s : Cpld) (port index : Nat) :
    (sfp_bit_show s port index).state.regs = s.regs ∧
    (sfp_bit_show s port index).state.read_addr = s.read_addr ∧
    0 < (sfp_bit_show s port index).ret := by
  refine ⟨rfl, rfl, ?_⟩
  have hr : (sfp_bit_show s port index).ret = ((sfp_bit_show s port index).buf.length : Int) :=
    rfl
  rw [hr]
  exact Int.ofNat_lt.mpr (sprintf_d_length_pos _)

theorem hex_show_pure (s : Cpld) :
    ((version_show s).state.regs = s.regs ∧ (version_show s).state.read_addr = s.read_addr ∧
      0 < (version_show s).ret) ∧
    ((scratch_show s).state.regs = s.regs ∧ (scratch_show s).state.read_addr = s.read_addr ∧
      0 < (scratch_show s).ret) ∧
    ((getreg_show s).state.regs = s.regs ∧ (getreg_show s).state.read_addr = s.read_addr ∧
      0 < (getreg_show s).ret) := by
  refine ⟨⟨rfl, rfl, ?_⟩, ⟨rfl, rfl, ?_⟩, ⟨rfl, rfl, ?_⟩⟩
  · rw [(version_show_buf s).2]; decide
  · rw [(scratch_show_buf s).2]; decide
  · rw [getreg_show_ret s]; decide

theorem led_show_pure (s : Cpld) :
    ((sys_led_show s).state.regs = s.regs ∧ (sys_led_show s).state.read_addr = s.read_addr ∧
      0 < (sys_led_show s).ret) ∧
    ((alarm_led_show s).state.regs = s.regs ∧ (alarm_led_show s).state.read_addr = s.read_addr ∧
      0 < (alarm_led_show s).ret) ∧
    ((pwr_led_show s).state.regs = s.regs ∧ (pwr_led_show s).state.read_addr = s.read_addr ∧
      0 < (pwr_led_show s).ret) := by
  refine ⟨⟨rfl, rfl, ?_⟩, ⟨rfl, rfl, ?_⟩, ⟨rfl, rfl, ?_⟩⟩
  · have hr : (sys_led_show s).ret = ((sys_led_show s).buf.length : Int) := rfl
    rw [hr]
    exact Int.ofNat_lt.mpr (sprintf_s_length_pos _)
  · have hr : (alarm_led_show s).ret = ((alarm_led_show s).buf.length : Int) := rfl
    rw [hr]
    exact Int.ofNat_lt.mpr (sprintf_s_length_pos _)
  · have hr : (pwr_led_show s).ret = ((pwr_led_show s).buf.length : Int) := rfl
    rw [hr]
    exact Int.ofNat_lt.mpr (sprintf_s_length_pos _)

theorem getreg_store_regs (s : Cpld) (buf : List Char) (count : Nat) :
    (getreg_store s buf count).state.regs = s.regs := by
  unfold getreg_store
  simp only
  split_ifs <;> rfl

/-- C23. For every state and every `*_show` call (version, scratch, getreg, the three
LEDs, the six PSU reads and the four SFP reads for any index): the state after the
call holds the same ports and the same selected address, and the call returns a
positive length. `getreg_store` changes no port. -/
theorem reads_have_no_side_effect (s : Cpld) (c : Call) (buf : List Char) (count : Nat) :
    (∀ r, show_call s c = some r →
      r.state = step s c ∧ r.state.regs = s.regs ∧ r.state.read_addr = s.read_addr ∧
      0 < r.ret) ∧
    (getreg_store s buf count).state.regs = s.regs := by
  refine ⟨?_, getreg_store_regs s buf count⟩
  intro r hr
  cases c <;> simp only [show_call, Option.some.injEq, reduceCtorEq] at hr <;> subst hr
  · exact ⟨rfl, (hex_show_pure s).1⟩
  · exact ⟨rfl, (hex_show_pure s).2.1⟩
  · exact ⟨rfl, (hex_show_pure s).2.2⟩
  · exact ⟨rfl, (led_show_pure s).1⟩
  · exact ⟨rfl, (led_show_pure s).2.1⟩
  · exact ⟨rfl, (led_show_pure s).2.2⟩
  · exact ⟨rfl, psu_bit_show_pure s PSUL_PRS⟩
  · exact ⟨rfl, psu_bit_show_pure s PSUR_PRS⟩
  · exact ⟨rfl, psu_bit_show_pure s PSUL_PWOK⟩
  · exact ⟨rfl, psu_bit_show_pure s PSUR_PWOK⟩
  · exact ⟨rfl, psu_bit_show_pure s PSUL_ENB⟩
  · exact ⟨rfl, psu_bit_show_pure s PSUR_ENB⟩
  · exact ⟨rfl, sfp_bit_show_pure s PRT_MDSL_TXFLT _⟩
  · exact ⟨rfl, sfp_bit_show_pure s PRT_PRSNT_MODABS _⟩
  · exact ⟨rfl, sfp_bit_show_pure s PRT_INT_RXLOS _⟩
  · exact ⟨rfl, sfp_bit_show_pure s PRT_LPMOD_TXDIS _⟩

theorem reads_have_no_side_effect_witness :
    show_call (all_ports 9) (Call.sfp_rxlos_show 1) = some (sfp_rxlos_show (all_ports 9) 1) ∧
    (sfp_rxlos_show (all_ports 9) 1).state.regs = (all_ports 9).regs ∧
    0 < (sfp_rxlos_show (all_ports 9) 1).ret :=
  ⟨rfl,
   ((reads_have_no_side_effect (all_ports 9) (Call.sfp_rxlos_show 1) [] 0).1 _ rfl).2.1,
   ((reads_have_no_side_effect (all_ports 9) (Call.sfp_rxlos_show 1) [] 0).1 _ rfl).2.2.2⟩

/-! ## C24: the power LED accessors use the alarm LED port -/

/-- C24. Evaluation at the failing input: with every port holding 0, `pwr_led_store`
on `amber` succeeds, leaves `LED_PWR` (0xA142) at 0 and writes 2 to `LED_ALARM`
(0xA144), so that `alarm_led_show` changes from `off` to `amber`; `pwr_led_show`
reads port 0xA144, not 0xA142. -/
theorem pwr_led_uses_alarm_port :
    (pwr_led_store (all_ports 0) ['a', 'm', 'b', 'e', 'r'] 5).ret = 5 ∧
    (pwr_led_store (all_ports 0) ['a', 'm', 'b', 'e', 'r'] 5).state.regs LED_PWR = 0 ∧
    (pwr_led_store (all_ports 0) ['a', 'm', 'b', 'e', 'r'] 5).state.regs LED_ALARM = 2 ∧
    (pwr_led_store (all_ports 0) ['a', 'm', 'b', 'e', 'r'] 5).state.trace =
      [Event.lock, Event.inb 0xA144, Event.outb 2 0xA144, Event.unlock] ∧
    (alarm_led_show (all_ports 0)).buf = ['o', 'f', 'f', NL] ∧
    (alarm_led_show (pwr_led_store (all_ports 0) ['a', 'm', 'b', 'e', 'r'] 5).state).buf =
      ['a', 'm', 'b', 'e', 'r', NL] ∧
    (pwr_led_show (all_ports 0)).state.trace =
      [Event.lock, Event.inb 0xA144, Event.unlock] ∧
    LED_PWR = 0xA142 ∧ LED_ALARM = 0xA144 :=
  ⟨rfl, rfl, rfl, rfl, rfl, rfl, rfl, rfl, rfl⟩

/-! ## C25: the alarm LED store touches only the 2-bit state field -/

theorem three_state_field : ∀ b < 256, ∀ c < 3,
    ((b &&& cnot 0x3) ||| c) % 256 = (b &&& 0xFC) ||| c ∧
    ((b &&& 0xFC) ||| c) &&& 0xFC = b &&& 0xFC ∧
    ((b &&& 0xFC) ||| c) &&& 0x3 = c := by
  decide

theorem alarm_led_store_token (s : Cpld) (count : Nat) (e : List Char × Nat)
    (he : e ∈ three_state_codes) :
    e.2 < 3 ∧
    alarm_led_store s e.1 count =
      ⟨mutex_unlock (outb (inb (mutex_lock s) LED_ALARM).2
        (((inb (mutex_lock s) LED_ALARM).1 &&& cnot 0x3) ||| e.2) LED_ALARM), count⟩ := by
  simp only [three_state_codes, List.mem_cons, List.mem_singleton, List.not_mem_nil,
    or_false] at he
  rcases he with rfl | rfl | rfl <;> exact ⟨by decide, rfl⟩

/-- C25. For every content of `LED_ALARM` (read as the byte `b`) and every token of
the table off = 0, green = 1, amber = 2 with code `c`: `alarm_led_store` returns the
count and leaves the port 0xA144 holding `(b & 0xFC) | c`; bits 7:2 are those of `b`
and bits 1:0 are `c`; every other port and the selected address are unchanged. -/
theorem alarm_led_store_touches_state_field (s : Cpld) (count : Nat) (e : List Char × Nat)
    (he : e ∈ three_state_codes) :
    (alarm_led_store s e.1 count).ret = count ∧
    (alarm_led_store s e.1 count).state.regs 0xA144 = (s.regs 0xA144 % 256 &&& 0xFC) ||| e.2 ∧
    (alarm_led_store s e.1 count).state.regs 0xA144 &&& 0xFC = s.regs 0xA144 % 256 &&& 0xFC ∧
    (alarm_led_store s e.1 count).state.regs 0xA144 &&& 0x3 = e.2 ∧
    (∀ p, p ≠ 0xA144 → (alarm_led_store s e.1 count).state.regs p = s.regs p) ∧
    (alarm_led_store s e.1 count).state.read_addr = s.read_addr := by
  obtain ⟨hc, hst⟩ := alarm_led_store_token s count e he
  have hb : s.regs LED_ALARM % 256 < 256 := Nat.mod_lt _ (by norm_num)
  obtain ⟨h1, h2, h3⟩ := three_state_field _ hb _ hc
  have hreg : (alarm_led_store s e.1 count).state.regs LED_ALARM =
      (s.regs LED_ALARM % 256 &&& 0xFC) ||| e.2 := by
    rw [hst]
    simp only [mutex_unlock, outb, inb, mutex_lock, setPort, if_true]
    exact h1
  have hreg1 : (alarm_led_store s e.1 count).state.regs 0xA144 =
      (s.regs 0xA144 % 256 &&& 0xFC) ||| e.2 := hreg
  refine ⟨by rw [hst], hreg1, ?_, ?_, ?_, by rw [hst]; rfl⟩
  · rw [hreg1]; exact h2
  · rw [hreg1]; exact h3
  · intro p hp
    have hp1 : p ≠ LED_ALARM := hp
    rw [hst]
    simp [mutex_unlock, outb, inb, mutex_lock, setPort, hp1]

theorem alarm_led_store_touches_state_field_witness :
    ((['a', 'm', 'b', 'e', 'r'], 2) : List Char × Nat) ∈ three_state_codes ∧
    (alarm_led_store (all_ports 0xF5) ['a', 'm', 'b', 'e', 'r'] 5).state.regs 0xA144 = 0xF6 :=
  ⟨by simp [three_state_codes],
   (alarm_led_store_touches_state_field (all_ports 0xF5) 5 (['a', 'm', 'b', 'e', 'r'], 2)
      (by simp [three_state_codes])).2.1⟩

/-! ## C26: SFP tx-disable write then read -/

/-- Bit `i` of the tx-disable register after an accepted `sfp_txdis_store`. -/
theorem sfp_txdis_store_testBit (s : Cpld) (index : Nat) (buf : List Char) (size : Nat)
    (v : Int) (h1 : 1 ≤ index) (h8 : index ≤ 8) (hv : kstrtol (cstr buf) 0 = Except.ok v)
    (h01 : v = 0 ∨ v = 1) (i : Nat) (hi : i < 8) :
    ((sfp_txdis_store s index buf size).state.regs PRT_LPMOD_TXDIS).testBit i =
      if i = index - 1 then decide (v = 1) else (s.regs PRT_LPMOD_TXDIS).testBit i := by
  have hk : index - 1 < 8 := by omega
  rcases h01 with rfl | rfl
  · rw [(sfp_txdis_store_of_zero s index buf size hv).2.1, setPort_same]
    simp only [testBit_mod_256, Nat.testBit_and, clear_mask_testBit _ _ hk hi]
    by_cases hik : i = index - 1 <;> simp [hi, hik]
  · rw [(sfp_txdis_store_of_one s index buf size hv).2.1, setPort_same]
    simp only [testBit_mod_256, Nat.testBit_or, set_mask_testBit]
    by_cases hik : i = index - 1
    · simp [hik, hk]
    · simp [hi, hik, Ne.symm hik]

/-- C26. For every port index `n` in 1..8, every text that `kstrtol` parses to `v` in
{0, 1} and every prior state: after `sfp_txdis_store` on port `n`, `sfp_txdis_show`
on port `n` prints `v`, and on every other port `m` in 1..8 it prints what it
printed before the write. -/
theorem sfp_txdis_store_show_round_trip (s : Cpld) (n m : Nat) (buf : List Char)
    (size : Nat) (v : Int) (hn1 : 1 ≤ n) (hn8 : n ≤ 8) (hm1 : 1 ≤ m) (hm8 : m ≤ 8)
    (hv : kstrtol (cstr buf) 0 = Except.ok v) (h01 : v = 0 ∨ v = 1) :
    (sfp_txdis_store s n buf size).ret = size ∧
    (sfp_txdis_show (sfp_txdis_store s n buf size).state n).buf = bit_text (decide (v = 1)) ∧
    (m ≠ n → (sfp_txdis_show (sfp_txdis_store s n buf size).state m).buf =
      (sfp_txdis_show s m).buf) := by
  have hret : (sfp_txdis_store s n buf size).ret = size := by
    rcases h01 with rfl | rfl
    · exact (sfp_txdis_store_of_zero s n buf size hv).1
    · exact (sfp_txdis_store_of_one s n buf size hv).1
  refine ⟨hret, ?_, ?_⟩
  · have hb := (sfp_bit_show_buf (sfp_txdis_store s n buf size).state PRT_LPMOD_TXDIS n
      hn1 hn8).1
    have ht := sfp_txdis_store_testBit s n buf size v hn1 hn8 hv h01 (n - 1) (by omega)
    rw [if_pos rfl] at ht
    unfold sfp_txdis_show
    rw [hb, ht]
  · intro hmn
    have hb := (sfp_bit_show_buf (sfp_txdis_store s n buf size).state PRT_LPMOD_TXDIS m
      hm1 hm8).1
    have hb0 := (sfp_bit_show_buf s PRT_LPMOD_TXDIS m hm1 hm8).1
    have ht := sfp_txdis_store_testBit s n buf size v hn1 hn8 hv h01 (m - 1) (by omega)
    rw [if_neg (by omega)] at ht
    unfold sfp_txdis_show
    rw [hb, hb0, ht]

theorem sfp_txdis_store_show_round_trip_witness :
    (1 ≤ 3 ∧ 3 ≤ 8 ∧ 1 ≤ 4 ∧ 4 ≤ 8 ∧ kstrtol (cstr ['0']) 0 = Except.ok 0) ∧
    (sfp_txdis_show (sfp_txdis_store (all_ports 0xFF) 3 ['0'] 1).state 3).buf = ['0', NL] ∧
    (sfp_txdis_show (sfp_txdis_store (all_ports 0xFF) 3 ['0'] 1).state 4).buf =
      (sfp_txdis_show (all_ports 0xFF) 4).buf :=
  ⟨⟨by decide, by decide, by decide, by decide, rfl⟩,
   (sfp_txdis_store_show_round_trip (all_ports 0xFF) 3 4 ['0'] 1 0 (by decide) (by decide)
      (by decide) (by decide) rfl (Or.inl rfl)).2.1,
   (sfp_txdis_store_show_round_trip (all_ports 0xFF) 3 4 ['0'] 1 0 (by decide) (by decide)
      (by decide) (by decide) rfl (Or.inl rfl)).2.2 (by decide)⟩

/-! ## C27: over-long hexadecimal values are truncated -/

/-- For hexadecimal numerals `da` of `a` and `dx` of `x` of any size: `scratch_store`
on `dx` returns the count and leaves `SCRATCH` holding `x mod 256`, every other port
unchanged; and when the C string of the input is `da`, one space, `dx` and fits
`clone[count]` with its NUL, `setreg_store` returns the count and leaves the port
`a mod 65536` holding `x mod 256`, every other port unchanged. -/
theorem hex_values_truncated_when_copy_fits (s : Cpld) (buf da dx : List Char)
    (a x count : Nat) (ha : IsHexNumeral da a) (hx : IsHexNumeral dx x)
    (hb : cstr buf = da ++ ' ' :: dx) (hfit : (cstr buf).length < count) :
    ((setreg_store s buf count).ret = count ∧
      (setreg_store s buf count).state.regs (a % 65536) = x % 256 ∧
      (∀ p, p ≠ a % 65536 → (setreg_store s buf count).state.regs p = s.regs p) ∧
      (setreg_store s buf count).state.faulted = s.faulted) ∧
    ((scratch_store s dx count).ret = count ∧
      (scratch_store s dx count).state.regs SCRATCH = x % 256 ∧
      (∀ p, p ≠ SCRATCH → (scratch_store s dx count).state.regs p = s.regs p)) := by
  have hx1 : x % 256 % 256 = x % 256 := by omega
  have hx2 : x % 65536 % 256 = x % 256 := by omega
  constructor
  · have hcopy : (strcpy_into s count (cstr buf)).2 = s := by
      rw [strcpy_into_fits s count _ hfit]
    rw [setreg_store_numerals s buf da dx a x count hb ha hx, hcopy]
    refine ⟨rfl, ?_, ?_, rfl⟩
    · simp [mutex_unlock, outb, mutex_lock, setPort, hx1]
    · intro p hp
      simp [mutex_unlock, outb, mutex_lock, setPort, hp]
  · obtain ⟨hxne, hxx, hxval⟩ := hx
    have hlx : dx.length ≠ 0 := by simpa using hxne
    have hxmod16 : hex_value dx % 2 ^ 64 % 2 ^ 16 = x % 65536 := by
      rw [hxval]; omega
    have hc : cstr dx = dx := cstr_eq_self dx (fun c hc => isxdigit_ne_NUL c (hxx c hc))
    have key : scratch_store s dx count =
        ⟨mutex_unlock (outb (mutex_lock s) (x % 65536) SCRATCH), count⟩ := by
      simp only [scratch_store, hc, simple_strtoul_hex dx hxx, hxmod16, hlx, and_false,
        if_false]
    rw [key]
    refine ⟨rfl, ?_, ?_⟩
    · simp [mutex_unlock, outb, mutex_lock, setPort, hx2]
    · intro p hp
      simp [mutex_unlock, outb, mutex_lock, setPort, hp]

/-- C27. Evaluation at the failing input: on the text `A101 15A` with count 8
`setreg_store` copies 9 bytes into `clone[8]`: the call runs past the end of the
array and its behaviour is undefined in C. Where the behaviour is defined the value
is truncated as claimed: `scratch_store` on `15A` leaves 0x5A in `SCRATCH`, and
`setreg_store` on the same text followed by a NUL byte inside the count stores 0x5A
at 0xA101. -/
theorem setreg_store_truncation_overruns_clone :
    (all_ports 0).faulted = false ∧
    (setreg_store (all_ports 0) ['A', '1', '0', '1', ' ', '1', '5', 'A'] 8).state.faulted
      = true ∧
    (scratch_store (all_ports 0) ['1', '5', 'A'] 3).ret = 3 ∧
    (scratch_store (all_ports 0) ['1', '5', 'A'] 3).state.regs SCRATCH = 0x5A ∧
    (setreg_store (all_ports 0) ['A', '1', '0', '1', ' ', '1', '5', 'A', NUL] 9).ret = 9 ∧
    (setreg_store (all_ports 0) ['A', '1', '0', '1', ' ', '1', '5', 'A', NUL] 9).state.regs
      0xA101 = 0x5A ∧
    (setreg_store (all_ports 0) ['A', '1', '0', '1', ' ', '1', '5', 'A', NUL] 9).state.faulted
      = false :=
  ⟨rfl, rfl, rfl, rfl, rfl, rfl, rfl⟩

/-! ## C28: LED tokens tolerate one trailing newline and nothing else -/

theorem three_state_token_iff (b : List Char) :
    (∃ t ∈ three_state_tokens, b = t ∨ b = t ++ [NL]) ↔
      (sysfs_streq b ['o', 'f', 'f'] = true ∨ sysfs_streq b ['g', 'r', 'e', 'e', 'n'] = true ∨
       sysfs_streq b ['a', 'm', 'b', 'e', 'r'] = true) := by
  rw [sysfs_streq_iff ['o', 'f', 'f'] b (by decide),
    sysfs_streq_iff ['g', 'r', 'e', 'e', 'n'] b (by decide),
    sysfs_streq_iff ['a', 'm', 'b', 'e', 'r'] b (by decide)]
  simp only [three_state_tokens, List.mem_cons, List.mem_singleton, List.not_mem_nil, or_false,
    exists_eq_or_imp, exists_eq_left]

theorem alarm_led_store_unknown (s : Cpld) (buf : List Char) (count : Nat)
    (h : ¬ ∃ t ∈ three_state_tokens, cstr buf = t ∨ cstr buf = t ++ [NL]) :
    (alarm_led_store s buf count).ret = -EINVAL := by
  rw [three_state_token_iff] at h
  simp only [not_or] at h
  obtain ⟨h1, h2, h3⟩ := h
  simp [alarm_led_store, h1, h2, h3]

theorem pwr_led_store_unknown (s : Cpld) (buf : List Char) (count : Nat)
    (h : ¬ ∃ t ∈ three_state_tokens, cstr buf = t ∨ cstr buf = t ++ [NL]) :
    (pwr_led_store s buf count).ret = -EINVAL := by
  rw [three_state_token_iff] at h
  simp only [not_or] at h
  obtain ⟨h1, h2, h3⟩ := h
  simp [pwr_led_store, h1, h2, h3]

theorem sys_led_store_unknown (s : Cpld) (buf : List Char) (count data0 : Nat)
    (h : ¬ ∃ t ∈ sys_led_tokens, cstr buf = t ∨ cstr buf = t ++ [NL]) :
    (sys_led_store s buf count data0).ret = -EINVAL := by
  rcases sys_led_store_ret_cases s buf count data0 with ⟨hin, _⟩ | ⟨_, hr⟩
  · exact absurd hin h
  · exact hr

/-- In a set of texts none of which is a proper prefix of another, a
member followed by anything but a single newline is neither a member nor a member
followed by a newline. -/
theorem extension_not_token (T : List (List Char))
    (hpre : ∀ t ∈ T, ∀ t1 ∈ T, t <+: t1 → t = t1) (t : List Char) (ht : t ∈ T) (c : Char)
    (rest : List Char) (hc : ¬ (c = NL ∧ rest = [])) :
    ¬ ∃ t1 ∈ T, t ++ c :: rest = t1 ∨ t ++ c :: rest = t1 ++ [NL] := by
  rintro ⟨t1, ht1, h | h⟩
  · have hp : t <+: t1 := ⟨c :: rest, h⟩
    have he := hpre t ht t1 ht1 hp
    subst he
    simp at h
  · by_cases hp : t <+: t1
    · have he := hpre t ht t1 ht1 hp
      subst he
      have h2 := List.append_cancel_left h
      simp only [List.cons.injEq] at h2
      exact hc h2
    · apply hp
      have hlen : t.length + (rest.length + 1) = t1.length + 1 := by
        have := congrArg List.length h
        simpa using this
      have h1 : t <+: t1 ++ [NL] := ⟨c :: rest, h⟩
      have h2 : t1 <+: t1 ++ [NL] := ⟨[NL], rfl⟩
      exact List.prefix_of_prefix_length_le h1 h2 (by omega)

theorem prefix_not_token (T : List (List Char)) (hnl : ∀ t ∈ T, NL ∉ t)
    (hpre : ∀ t ∈ T, ∀ t1 ∈ T, t <+: t1 → t = t1) (t : List Char) (ht : t ∈ T)
    (p q : List Char) (hq : q ≠ []) (hpq : p ++ q = t) :
    ¬ ∃ t1 ∈ T, p = t1 ∨ p = t1 ++ [NL] := by
  rintro ⟨t1, ht1, h | h⟩
  · subst h
    have he := hpre p ht1 t ht ⟨q, hpq⟩
    subst he
    exact hq (by simpa using hpq)
  · subst h
    apply hnl t ht
    rw [← hpq]
    simp

theorem sys_led_tokens_shape :
    (∀ t ∈ sys_led_tokens, NL ∉ t) ∧
    (∀ t ∈ sys_led_tokens, ∀ t1 ∈ sys_led_tokens, t <+: t1 → t = t1) := by
  decide

theorem three_state_tokens_shape :
    (∀ t ∈ three_state_tokens, NL ∉ t) ∧
    (∀ t ∈ three_state_tokens, ∀ t1 ∈ three_state_tokens, t <+: t1 → t = t1) := by
  decide

/-- C28. For every token `t` of the status LED (nine tokens) and of the alarm and
power LEDs (three tokens): the input `t` followed by one newline is accepted and
leaves every port as the input `t` alone does; an input whose C string is `t`
followed by anything other than exactly one newline (a space, a second newline, any
longer tail), or a proper prefix of `t`, is rejected with `-EINVAL`. -/
theorem led_tokens_tolerate_one_newline (s : Cpld) (buf : List Char) (count data0 : Nat) :
    (∀ t ∈ sys_led_tokens,
      (sys_led_store s (t ++ [NL]) count data0).ret = count ∧
      (sys_led_store s (t ++ [NL]) count data0).state.regs =
        (sys_led_store s t count data0).state.regs) ∧
    (∀ t ∈ three_state_tokens,
      (alarm_led_store s (t ++ [NL]) count).ret = count ∧
      (alarm_led_store s (t ++ [NL]) count).state.regs =
        (alarm_led_store s t count).state.regs ∧
      (pwr_led_store s (t ++ [NL]) count).ret = count ∧
      (pwr_led_store s (t ++ [NL]) count).state.regs = (pwr_led_store s t count).state.regs) ∧
    (∀ t ∈ sys_led_tokens, ∀ c rest, cstr buf = t ++ c :: rest → ¬ (c = NL ∧ rest = []) →
      (sys_led_store s buf count data0).ret = -EINVAL) ∧
    (∀ t ∈ three_state_tokens, ∀ c rest, cstr buf = t ++ c :: rest → ¬ (c = NL ∧ rest = []) →
      (alarm_led_store s buf count).ret = -EINVAL ∧
      (pwr_led_store s buf count).ret = -EINVAL) ∧
    (∀ t ∈ sys_led_tokens, ∀ q, q ≠ [] → cstr buf ++ q = t →
      (sys_led_store s buf count data0).ret = -EINVAL) ∧
    (∀ t ∈ three_state_tokens, ∀ q, q ≠ [] → cstr buf ++ q = t →
      (alarm_led_store s buf count).ret = -EINVAL ∧
      (pwr_led_store s buf count).ret = -EINVAL) := by
  refine ⟨?_, ?_, ?_, ?_, ?_, ?_⟩
  · intro t ht
    simp only [sys_led_tokens, List.mem_cons, List.mem_singleton, List.not_mem_nil,
      or_false] at ht
    rcases ht with rfl | rfl | rfl | rfl | rfl | rfl | rfl | rfl | rfl <;> exact ⟨rfl, rfl⟩
  · intro t ht
    simp only [three_state_tokens, List.mem_cons, List.mem_singleton, List.not_mem_nil,
      or_false] at ht
    rcases ht with rfl | rfl | rfl <;> exact ⟨rfl, rfl, rfl, rfl⟩
  · intro t ht c rest hb hc
    apply sys_led_store_unknown
    rw [hb]
    exact extension_not_token _ sys_led_tokens_shape.2 t ht c rest hc
  · intro t ht c rest hb hc
    have hno := extension_not_token _ three_state_tokens_shape.2 t ht c rest hc
    rw [← hb] at hno
    exact ⟨alarm_led_store_unknown s buf count hno, pwr_led_store_unknown s buf count hno⟩
  · intro t ht q hq hb
    apply sys_led_store_unknown
    exact prefix_not_token _ sys_led_tokens_shape.1 sys_led_tokens_shape.2 t ht _ q hq hb
  · intro t ht q hq hb
    have hno := prefix_not_token _ three_state_tokens_shape.1 three_state_tokens_shape.2 t ht
      _ q hq hb
    exact ⟨alarm_led_store_unknown s buf count hno, pwr_led_store_unknown s buf count hno⟩

theorem led_tokens_tolerate_one_newline_witness :
    (sys_led_store (all_ports 0) ['g', 'r', 'e', 'e', 'n', ' '] 6 0).ret = -EINVAL ∧
    (alarm_led_store (all_ports 0) ['o', 'f', 'f', NL, NL] 5).ret = -EINVAL ∧
    (pwr_led_store (all_ports 0) ['a', 'm', 'b'] 3).ret = -EINVAL ∧
    (alarm_led_store (all_ports 0) ['a', 'm', 'b', 'e', 'r', NL] 6).ret = 6 :=
  ⟨(led_tokens_tolerate_one_newline (all_ports 0) ['g', 'r', 'e', 'e', 'n', ' '] 6 0).2.2.1
      ['g', 'r', 'e', 'e', 'n'] (by decide) ' ' [] rfl (by decide),
   ((led_tokens_tolerate_one_newline (all_ports 0) ['o', 'f', 'f', NL, NL] 5 0).2.2.2.1
      ['o', 'f', 'f'] (by decide) NL [NL] rfl (by decide)).1,
   ((led_tokens_tolerate_one_newline (all_ports 0) ['a', 'm', 'b'] 3 0).2.2.2.2.2
      ['a', 'm', 'b', 'e', 'r'] (by decide) ['e', 'r'] (by decide) rfl).2,
   ((led_tokens_tolerate_one_newline (all_ports 0) [] 6 0).2.1
      ['a', 'm', 'b', 'e', 'r'] (by decide)).1⟩

/-! ## C21: no lost update under interleaving -/

/-- Run alone from a free lock, the four statements of a caller do what
`sfp_txdis_store` does on the text `1`. -/
theorem caller_steps_eq_store (s : Cpld) (index d size : Nat) (h : s.locked = false) :
    (caller_step (caller_step (caller_step (caller_step s ⟨index, 0, d⟩).1
        (caller_step s ⟨index, 0, d⟩).2).1
        (caller_step (caller_step s ⟨index, 0, d⟩).1 (caller_step s ⟨index, 0, d⟩).2).2).1
      (caller_step (caller_step (caller_step s ⟨index, 0, d⟩).1
        (caller_step s ⟨index, 0, d⟩).2).1
        (caller_step (caller_step s ⟨index, 0, d⟩).1 (caller_step s ⟨index, 0, d⟩).2).2).2).1
      = (sfp_txdis_store s index ['1'] size).state := by
  have hk : kstrtol (cstr ['1']) 0 = Except.ok 1 := rfl
  simp [caller_step, h, sfp_txdis_store, hk, inb]

end Belgite
